import Mathlib

/-!
Verification of the recurring-event generation and notification-scheduling
engine of the petopia backend (TypeScript sources under `src/`).

Modelling conventions for the shallow embedding:

* A JavaScript `Date` is its UTC timestamp in milliseconds since the Unix
  epoch, represented as `Int`.  The backend is assumed to run with a UTC
  system timezone (the usual server deployment), so `new Date(y, m, d, ...)`
  builds the UTC instant of those civil components and local getters agree
  with the UTC getters.
* `Math.floor(a / b)` for positive integer `b` is Lean's `a / b` on `Int`
  (`Int.ediv` floors for positive divisors).  JavaScript's `%` operator is
  modelled at its use sites, where the dividend is guarded non-negative, by
  `%` on `Int` (the two agree there).
* Civil-date components (`getUTCFullYear` / `getUTCMonth` / `getUTCDate`,
  `new Date(year, month, day)`), are computed by the standard
  days-from-civil / civil-from-days algorithms, which agree with the
  proleptic Gregorian calendar used by ECMAScript dates.
* Named IANA timezones are modelled abstractly as a pair of conversions
  between local wall-clock milliseconds and UTC milliseconds
  (`fromZonedTime` / `toZonedTime` of date-fns-tz); `UTC` is the identity.
* Asynchronous database / network effects are modelled by explicit state
  passing (the event store is a list of records) and by oracle functions
  supplying the outcome of each external call.
-/

namespace Petopia

/-! ## Time units -/

def msPerMinute : Int := 60000
def msPerHour : Int := 3600000
def msPerDay : Int := 86400000
def msPerWeek : Int := 7 * 24 * 60 * 60 * 1000

/-- The civil day number containing timestamp `t` (days since 1970-01-01,
negative before the epoch): `Math.floor(t / 86400000)`. -/
def dayNumber (t : Int) : Int := t / msPerDay

/-- `Date.prototype.getUTCDay`: 0 = Sunday … 6 = Saturday.
1970-01-01 (day 0) was a Thursday (= 4). -/
def getUTCDay (t : Int) : Int := (dayNumber t + 4) % 7

/-- `date.setSeconds(0, 0)`: truncate a timestamp to its civil minute. -/
def truncToMinute (t : Int) : Int := t / msPerMinute * msPerMinute

/-! ## Civil (proleptic Gregorian) calendar

`civilFromDays` / `daysFromCivil` are the standard era-based conversion
algorithms between day numbers and `(year, month, day)` triples; ECMAScript
`Date` components follow the same proleptic Gregorian calendar. -/

structure CivilDate where
  year : Int
  month : Int
  day : Int
deriving DecidableEq

/-- Convert a day number (days since 1970-01-01) to its civil date. -/
def civilFromDays (n : Int) : CivilDate :=
  let z : Int := n + 719468
  let era : Int := z / 146097
  let doe : Int := z - era * 146097
  let yoe : Int := (doe - doe / 1460 + doe / 36524 - doe / 146096) / 365
  let y : Int := yoe + era * 400
  let doy : Int := doe - (365 * yoe + yoe / 4 - yoe / 100)
  let mp : Int := (5 * doy + 2) / 153
  let d : Int := doy - (153 * mp + 2) / 5 + 1
  let m : Int := if mp < 10 then mp + 3 else mp - 9
  ⟨if m ≤ 2 then y + 1 else y, m, d⟩

/-- Convert a civil date to its day number (days since 1970-01-01). -/
def daysFromCivil (y m d : Int) : Int :=
  let y' : Int := if m ≤ 2 then y - 1 else y
  let era : Int := y' / 400
  let yoe : Int := y' - era * 400
  let mp : Int := if m > 2 then m - 3 else m + 9
  let doy : Int := (153 * mp + 2) / 5 + d - 1
  let doe : Int := yoe * 365 + yoe / 4 - yoe / 100 + doy
  era * 146097 + doe - 719468

def civilOf (t : Int) : CivilDate := civilFromDays (dayNumber t)

def getUTCFullYear (t : Int) : Int := (civilOf t).year

/-- `getUTCMonth` is 0-based in JavaScript. -/
def getUTCMonth (t : Int) : Int := (civilOf t).month - 1

def getUTCDate (t : Int) : Int := (civilOf t).day

/-- Gregorian leap-year test (as JavaScript date arithmetic realises it). -/
def isLeapYear (y : Int) : Bool := (y % 4 == 0 && y % 100 != 0) || y % 400 == 0

/-- Number of days in month `m` (1-based) of year `y`. -/
def daysInMonth (y m : Int) : Int :=
  if m = 2 then (if isLeapYear y then 29 else 28)
  else if m = 4 ∨ m = 6 ∨ m = 9 ∨ m = 11 then 30
  else 31

/-! ### Correctness of the civil-calendar conversions -/

/-- Numerator of the year-of-era computation inside `civilFromDays`. -/
def yoeNum (doe : Int) : Int := doe - doe / 1460 + doe / 36524 - doe / 146096

/-- Year-of-era of a day-of-era. -/
def yoeOf (doe : Int) : Int := yoeNum doe / 365

/-- Day-of-era on which year-of-era `y` starts. -/
def dstart (y : Int) : Int := 365 * y + y / 4 - y / 100

/-- `new Date(year, monthIndex + 1, 0).getUTCDate()` with a UTC runtime:
the number of days in 0-based month `m0` of year `y`, obtained as day `0`
of the following month (src/services/userBudgetService.ts, monthly case of
`calculateRecurrenceDates`). -/
def lastDayOfMonthJS (y m0 : Int) : Int :=
  getUTCDate (daysFromCivil y (m0 + 1 + 1) 0 * msPerDay)

/-! ## The recurrence expander
(`calculateRecurrenceDates` in src/services/userBudgetService.ts) -/

inductive Frequency
  | daily
  | weekly
  | monthly
  | yearly
  | custom
  | times_per_day
deriving DecidableEq

/-- A wall-clock time of day: the parsed form of the validated `'HH:MM'`
strings used by `applyTimeToDateInTimezone` (hours `0–23`, minutes `0–59`
after write-time validation). -/
structure TimeHM where
  hour : Int
  minute : Int
deriving DecidableEq

/-- An IANA timezone, abstracted as the pair of conversions used by the
source (date-fns-tz): `fromLocal` is `fromZonedTime` (wall-clock instant in
the zone → UTC instant) and `toLocal` is `toZonedTime` (UTC instant →
wall-clock instant in the zone).  `UTC` is the identity in both
directions. -/
structure Timezone where
  fromLocal : Int → Int
  toLocal : Int → Int

def utcTz : Timezone := ⟨id, id⟩

/-- The pattern fields of a recurrence rule (model `RecurrenceRule`). -/
structure RecurrenceRule where
  frequency : Frequency
  interval : Option Int
  daysOfWeek : List Int
  dayOfMonth : Option Int
  timesPerDay : Option Int
  dailyTimes : List TimeHM
  timezone : Timezone
  startDate : Int
  endDate : Option Int
  excludedDates : List Int

/-- `applyTimeToDateInTimezone(baseDate, timeString, timezone)`: build the
local wall-clock datetime from the UTC date components of `baseDate` plus
the parsed `HH:MM`, and convert it to UTC with `fromZonedTime`. -/
def applyTimeToDateInTimezone (baseDate : Int) (t : TimeHM) (tz : Timezone) : Int :=
  tz.fromLocal
    (daysFromCivil (civilOf baseDate).year (civilOf baseDate).month (civilOf baseDate).day
        * msPerDay
      + t.hour * msPerHour + t.minute * msPerMinute)

/-- `getHorizonForFrequency(frequency, interval = 1)`. -/
def getHorizonForFrequency (frequency : Frequency) (interval : Int) : Int :=
  match frequency with
  | .times_per_day => 90
  | .daily => 90
  | .weekly => 180
  | .monthly => 730
  | .yearly => 1825
  | .custom => if interval ≤ 3 then 90 else if interval ≤ 14 then 180 else 365

/-- The per-day `shouldInclude` switch of `calculateRecurrenceDates`.
`startDate` is `rule.startDate`; `interval` is `rule.interval ?? 1`.
JavaScript's truncating `%` is `Int.tmod`. -/
def shouldIncludeDay (rule : RecurrenceRule) (startDate currentDate interval : Int) : Bool :=
  match rule.frequency with
  | .daily => true
  | .times_per_day => true
  | .weekly =>
      let startWeekNumber := startDate / msPerWeek
      let currentWeekNumber := currentDate / msPerWeek
      let weeksSinceStart := currentWeekNumber - startWeekNumber
      if 0 ≤ weeksSinceStart ∧ Int.tmod weeksSinceStart interval = 0 then
        if rule.daysOfWeek ≠ [] then rule.daysOfWeek.contains (getUTCDay currentDate)
        else getUTCDay currentDate == getUTCDay startDate
      else false
  | .monthly =>
      let targetDay := rule.dayOfMonth.getD (getUTCDate startDate)
      let currentDay := getUTCDate currentDate
      let lastDayOfMonth := lastDayOfMonthJS (getUTCFullYear currentDate) (getUTCMonth currentDate)
      let incl : Bool :=
        if targetDay > lastDayOfMonth then currentDay == lastDayOfMonth
        else currentDay == targetDay
      if incl ∧ 1 < interval then
        let monthsSinceStart :=
          (getUTCFullYear currentDate - getUTCFullYear startDate) * 12 +
            (getUTCMonth currentDate - getUTCMonth startDate)
        Int.tmod monthsSinceStart interval = 0
      else incl
  | .yearly =>
      getUTCMonth currentDate == getUTCMonth startDate &&
        getUTCDate currentDate == getUTCDate startDate
  | .custom =>
      let diffDays := (currentDate - startDate) / msPerDay
      Int.tmod diffDays interval = 0

/-- Spec-side definition, following the spec's words rather than the code,
for comparison: the ISO-8601 week offset between two instants.  ISO weeks
begin on Monday; epoch day −3 (1969-12-29) was a Monday, so the ISO week
index of an instant is `⌊(dayNumber t + 3) / 7⌋`. -/
def isoWeekOffset (startDate currentDate : Int) : Int :=
  (dayNumber currentDate + 3) / 7 - (dayNumber startDate + 3) / 7

/-- `calculateRecurrenceDates(rule, horizonDays, userDefaultTime)`, with the
call instant `new Date()` passed explicitly as `now`.  The day-by-day
`while` loop becomes a `flatMap` over the day offsets `0 … (effectiveEnd −
startDate) / msPerDay`. -/
def calculateRecurrenceDates (rule : RecurrenceRule) (horizonDays : Int)
    (userDefaultTime : TimeHM) (now : Int) : List Int :=
  let startDate := rule.startDate
  let horizonEnd := now + horizonDays * msPerDay
  let effectiveEnd :=
    match rule.endDate with
    | some e => if e < horizonEnd then e else horizonEnd
    | none => horizonEnd
  let excludedTimes := rule.excludedDates.map truncToMinute
  let times := if rule.dailyTimes ≠ [] then rule.dailyTimes else [userDefaultTime]
  let interval := rule.interval.getD 1
  let numDays : Nat :=
    if startDate ≤ effectiveEnd then ((effectiveEnd - startDate) / msPerDay).toNat + 1 else 0
  (List.range numDays).flatMap fun k =>
    let currentDate := startDate + (k : Int) * msPerDay
    if shouldIncludeDay rule startDate currentDate interval then
      if rule.frequency = .times_per_day ∧ rule.timesPerDay.getD 0 ≠ 0 then
        (times.take (rule.timesPerDay.getD 0).toNat).filterMap fun t =>
          let eventDate := applyTimeToDateInTimezone currentDate t rule.timezone
          if excludedTimes.contains (truncToMinute eventDate) then none
          else if now ≤ eventDate ∧ eventDate ≤ effectiveEnd then some eventDate
          else none
      else
        let t := times.headD ⟨9, 0⟩
        let eventDate := applyTimeToDateInTimezone currentDate t rule.timezone
        if excludedTimes.contains (truncToMinute eventDate) then []
        else if now ≤ eventDate ∧ eventDate ≤ effectiveEnd then [eventDate]
        else []
    else []

/-! ## The event store and materializer
(`generateEvents` / `regenerateEvents` / `addException` in
src/services/userBudgetService.ts; unique index on
`(recurrenceRuleId, startTime)` from src/models/mongoose/event.ts) -/

/-- A materialized occurrence (model `Event`), restricted to the fields the
materializer reads or writes. -/
structure EventRec where
  userId : Int
  ruleId : Option Int
  startTime : Int
  endTime : Option Int
  status : String
  seriesIndex : Nat
  isException : Bool
deriving DecidableEq

/-- The `events` collection. -/
abbrev EventStore := List EventRec

/-- `EventModel.findOne({ recurrenceRuleId, startTime })`. -/
def findOneByRuleStart (store : EventStore) (ruleId startTime : Int) : Option EventRec :=
  store.find? fun e => e.ruleId == some ruleId && e.startTime == startTime

/-- Database-level errors surfaced to the materializer; `duplicateKey` is
Mongo error code 11000 from the unique `(recurrenceRuleId, startTime)`
index. -/
inductive DbError
  | duplicateKey
deriving DecidableEq

/-- `EventModel.create`, enforcing the unique sparse index on
`(recurrenceRuleId, startTime)` (events without a rule are exempt). -/
def createEvent (store : EventStore) (e : EventRec) : Except DbError EventStore :=
  match e.ruleId with
  | some rid =>
      if (findOneByRuleStart store rid e.startTime).isSome then .error .duplicateKey
      else .ok (store ++ [e])
  | none => .ok (store ++ [e])

/-- A persisted recurrence-rule document (model `RecurrenceRule` document):
its id, owner, pattern and the template fields the loop uses. -/
structure StoredRule where
  id : Int
  userId : Int
  pattern : RecurrenceRule
  eventDurationMinutes : Option Int
  isActive : Bool

/-- One iteration of the `generateEvents` loop for date index `i`.  The
`findOne` lookup runs against `lookupStore` and the insert against `store`;
the sequential run uses the same store for both, while a concurrent
interleaving can make the insert hit the unique index even though the
lookup saw no row — that duplicate-key error (code 11000) is caught and
treated as success. -/
def processDate (rule : StoredRule) (i : Nat) (date : Int) (lookupStore store : EventStore) :
    Except DbError (EventStore × Nat) :=
  match findOneByRuleStart lookupStore rule.id date with
  | some _ => .ok (store, 0)
  | none =>
      let endTime := rule.eventDurationMinutes.map fun dur => date + dur * msPerMinute
      match createEvent store ⟨rule.userId, some rule.id, date, endTime, "upcoming", i, false⟩ with
      | .ok s' => .ok (s', 1)
      | .error .duplicateKey => .ok (store, 0)

/-- The `for` loop of `generateEvents` over the expander's dates, carrying
the running index `i`.  The `.error` case cannot occur (`processDate`
swallows the only database error); the real loop would rethrow there. -/
def generateEventsGo (rule : StoredRule) : Nat → List Int → EventStore → EventStore × Nat
  | _, [], store => (store, 0)
  | i, date :: rest, store =>
      match processDate rule i date store store with
      | .ok (s', c) =>
          let r := generateEventsGo rule (i + 1) rest s'
          (r.1, c + r.2)
      | .error _ => (store, 0)

def generateEventsLoop (rule : StoredRule) (dates : List Int) (store : EventStore) :
    EventStore × Nat :=
  generateEventsGo rule 0 dates store

/-- `generateEvents(userId, ruleId)`: expand the rule over its horizon and
insert each date that is not already materialized; returns the new store
and the count of newly created events.  (The `lastGeneratedDate` stamp on
the rule document is not represented in the event store.) -/
def generateEvents (rule : StoredRule) (userDefaultTime : TimeHM) (now : Int)
    (store : EventStore) : EventStore × Nat :=
  if rule.isActive then
    let horizonDays := getHorizonForFrequency rule.pattern.frequency (rule.pattern.interval.getD 1)
    generateEventsLoop rule
      (calculateRecurrenceDates rule.pattern horizonDays userDefaultTime now) store
  else (store, 0)

/-- The `deleteMany` filter of `regenerateEvents`: future (`startTime ≥
now`), non-exception (`isException ≠ true`) events of this rule and user. -/
def regenerateDeletes (rule : StoredRule) (now : Int) (e : EventRec) : Bool :=
  e.ruleId == some rule.id && e.userId == rule.userId && now ≤ e.startTime &&
    e.isException != true

/-- `regenerateEvents(userId, ruleId)`: delete future non-exception events
of the rule, then re-run `generateEvents`. -/
def regenerateEvents (rule : StoredRule) (userDefaultTime : TimeHM) (now : Int)
    (store : EventStore) : EventStore × Nat × Nat :=
  let survivors := store.filter fun e => ¬ regenerateDeletes rule now e
  let deleted := store.length - survivors.length
  let (s', created) := generateEvents rule userDefaultTime now survivors
  (s', deleted, created)

/-- `EventModel.deleteOne({ recurrenceRuleId, userId, startTime })`:
remove the first matching event. -/
def deleteOneEvent (ruleId userId startTime : Int) : EventStore → EventStore
  | [] => []
  | e :: rest =>
      if e.ruleId == some ruleId && e.userId == userId && e.startTime == startTime then rest
      else e :: deleteOneEvent ruleId userId startTime rest

/-- `addException(userId, ruleId, date)`: `$addToSet` the minute-truncated
date into `excludedDates`; when that modified the rule, also delete the
event at exactly that instant.  Returns the updated rule, store, and the
boolean result. -/
def addException (rule : StoredRule) (store : EventStore) (date : Int) :
    StoredRule × EventStore × Bool :=
  let normalizedDate := truncToMinute date
  if rule.pattern.excludedDates.contains normalizedDate then (rule, store, false)
  else
    let rule' := { rule with pattern :=
      { rule.pattern with excludedDates := rule.pattern.excludedDates ++ [normalizedDate] } }
    let store' := deleteOneEvent rule.id rule.userId normalizedDate store
    (rule', store', true)

/-! ## The budget alert engine
(`checkBudgetAlert` in src/services/userBudgetService.ts and the per-budget
body of `sendAlertsToAllUsers` in src/services/exchangeRateService.ts) -/

inductive Severity
  | warning
  | critical
deriving DecidableEq

/-- The alert-relevant state of a `UserBudget` document. -/
structure BudgetState where
  amount : ℚ
  alertThreshold : ℚ
  isActive : Bool
  lastAlertAt : Option Int
  lastAlertSeverity : Option Severity
  lastAlertPeriod : Option String
  lastAlertPercentage : Option ℚ
deriving DecidableEq

/-- The year-month period key `` `${now.getFullYear()}-${String(now.getMonth()
+ 1).padStart(2, '0')}` `` (UTC runtime). -/
def periodKeyOf (now : Int) : String :=
  let m := getUTCMonth now + 1
  toString (getUTCFullYear now) ++ "-" ++ (if m < 10 then "0" ++ toString m else toString m)

/-- The alert value returned by `checkBudgetAlert`. -/
structure BudgetAlert where
  severity : Severity
  percentage : ℚ
  isExceeded : Bool
deriving DecidableEq

/-- `checkBudgetAlert(userId)` as a function of the fetched state: the two
notification toggles, the active budget (`getBudgetStatus` returns null for
an inactive budget), and the aggregated current-month spending.  Returns
the alert (or `none`) and the saved budget document. -/
def checkBudgetAlert (notificationsEnabled budgetNotificationsEnabled : Bool)
    (budget : BudgetState) (currentSpending : ℚ) (now : Int) :
    Option BudgetAlert × BudgetState :=
  if ¬ (notificationsEnabled && budgetNotificationsEnabled) then (none, budget)
  else if ¬ budget.isActive then (none, budget)
  else
    let percentage := if 0 < budget.amount then currentSpending / budget.amount * 100 else 0
    let isAlert := budget.alertThreshold * 100 ≤ percentage
    if ¬ isAlert then (none, budget)
    else
      let periodKey := periodKeyOf now
      let severity := if 100 ≤ percentage then Severity.critical else Severity.warning
      if budget.lastAlertPeriod = some periodKey ∧
          (budget.lastAlertSeverity = some Severity.critical ∨
            budget.lastAlertSeverity = some severity) then
        (none, budget)
      else
        let budget' := { budget with
          lastAlertAt := some now
          lastAlertSeverity := some severity
          lastAlertPeriod := some periodKey
          lastAlertPercentage := some percentage }
        (some ⟨severity, percentage, 100 ≤ percentage⟩, budget')

/-- Outcome of `sendBudgetAlert(userId, …)`: that function catches every
internal error and reports `success = false` instead of throwing. -/
structure SendBudgetAlertResult where
  success : Bool
  sentCount : Nat
deriving DecidableEq

/-- The per-budget body of `sendAlertsToAllUsers`: dedup checks, threshold
check, re-check, then send and stamp.  `send` supplies the outcome of
`sendBudgetAlert`; sequentially the re-check re-reads the same state.
Returns the stored budget state after the iteration and the severity/result
pair when a send was attempted. -/
def processBudgetAlert (budget : BudgetState) (currentSpending : ℚ) (now : Int)
    (send : Severity → SendBudgetAlertResult) :
    BudgetState × Option (Severity × SendBudgetAlertResult) :=
  let periodKey := periodKeyOf now
  if budget.lastAlertPeriod = some periodKey ∧
      budget.lastAlertSeverity = some Severity.critical then
    (budget, none)
  else
    let percentage := if 0 < budget.amount then currentSpending / budget.amount * 100 else 0
    let isExceeded := 100 ≤ percentage
    let severity := if isExceeded then Severity.critical else Severity.warning
    if percentage < budget.alertThreshold * 100 ∧ ¬ isExceeded then (budget, none)
    else if budget.lastAlertPeriod = some periodKey ∧
        budget.lastAlertSeverity = some severity then
      (budget, none)
    else
      let result := send severity
      let budget' := { budget with
        lastAlertAt := some now
        lastAlertSeverity := some severity
        lastAlertPeriod := some periodKey
        lastAlertPercentage := some percentage }
      (budget', some (severity, result))

/-! ## The push dispatch gateway (src/services/pushNotificationService.ts) -/

def EXPO_BATCH_SIZE : Nat := 100
def MAX_RETRIES : Nat := 3
def INITIAL_RETRY_DELAY_MS : Nat := 1000

/-- One outbound message of a batch request (`toToken` is the source's
`to` field, a reserved word in Lean). -/
structure ExpoPushMessage where
  toToken : String
  title : String
  body : String
deriving DecidableEq

/-- One per-message entry of a validated Expo API response. -/
structure ExpoPushResult where
  status : String
  message : Option String
  detailsError : Option String
  pushNotificationId : Option String
deriving DecidableEq

/-- `chunkArray(array, chunkSize)`: consecutive slices of `chunkSize`
elements.  The source loop advances by `chunkSize` (always the constant
100 ≥ 1), so a fuel of `array.length` covers every iteration. -/
def chunkArrayGo (size : Nat) : Nat → List α → List (List α)
  | _, [] => []
  | 0, _ :: _ => []
  | fuel + 1, l => l.take size :: chunkArrayGo size fuel (l.drop size)

def chunkArray (l : List α) (size : Nat) : List (List α) :=
  chunkArrayGo size l.length l

/-- ASCII `toLowerCase`, the fragment of JavaScript's that the fixed
retryable patterns exercise. -/
def asciiToLower (c : Char) : Char :=
  if 'A' ≤ c ∧ c ≤ 'Z' then Char.ofNat (c.toNat + 32) else c

def strToLower (s : String) : String := ⟨s.data.map asciiToLower⟩

def startsWithChars [DecidableEq α] : List α → List α → Bool
  | _, [] => true
  | [], _ :: _ => false
  | a :: as, b :: bs => a == b && startsWithChars as bs

def containsSub [DecidableEq α] : List α → List α → Bool
  | [], pat => pat.isEmpty
  | a :: rest, pat => startsWithChars (a :: rest) pat || containsSub rest pat

/-- `String.prototype.includes`. -/
def strIncludes (s pattern : String) : Bool := containsSub s.data pattern.data

def retryablePatterns : List String :=
  ["rate limit", "too many requests", "timeout", "timed out", "econnreset",
    "econnrefused", "socket hang up", "429", "500", "502", "503", "504"]

/-- `isRetryableError(error)`: the lowercased message contains one of the
fixed retryable patterns. -/
def isRetryableError (message : String) : Bool :=
  retryablePatterns.any fun p => strIncludes (strToLower message) p

/-- Result of running the retry loop on one batch. -/
structure BatchOutcome where
  result : Option (List ExpoPushResult)
  lastError : Option String
  delays : List Nat
  calls : Nat
deriving DecidableEq

/-- The `for (attempt …)` retry loop of `sendToExpo` for a single batch.
`f attempt` is the outcome of `sendBatchToExpo` on that attempt (an
`Except` capturing a thrown error: HTTP-level failure or a Zod-invalid
response).  `remaining` is `MAX_RETRIES - attempt`; `remaining = 0` is the
loop-exit case.  `delays` lists each backoff waited
(`INITIAL_RETRY_DELAY_MS * 2 ^ attempt`), `calls` counts provider
requests. -/
def attemptBatch (f : Nat → Except String (List ExpoPushResult)) :
    Nat → Nat → BatchOutcome
  | _, 0 => ⟨none, none, [], 0⟩
  | attempt, remaining + 1 =>
      match f attempt with
      | .ok r => ⟨some r, none, [], 1⟩
      | .error e =>
          if ¬ isRetryableError e ∨ remaining = 0 then ⟨none, some e, [], 1⟩
          else
            let rest := attemptBatch f (attempt + 1) remaining
            ⟨rest.result, some (rest.lastError.getD e),
              INITIAL_RETRY_DELAY_MS * 2 ^ attempt :: rest.delays, rest.calls + 1⟩

/-- What `sendToExpo` did: the concatenated per-message results, every
backoff delay waited, and the size of each physical provider request. -/
structure SendToExpoOutcome where
  data : List ExpoPushResult
  delays : List Nat
  batchCalls : List Nat
deriving DecidableEq

/-- `sendToExpo(messages)`, with `oracle batchIndex attempt` supplying the
outcome of each `sendBatchToExpo` call.  A batch whose retries are
exhausted contributes one `status = 'error'` entry per message, carrying
the last error — no exception propagates to the caller. -/
def sendToExpo (messages : List ExpoPushMessage)
    (oracle : Nat → Nat → Except String (List ExpoPushResult)) : SendToExpoOutcome :=
  if messages = [] then ⟨[], [], []⟩
  else
    (chunkArray messages EXPO_BATCH_SIZE).enum.foldl
      (fun acc p =>
        let batch := p.2
        if batch = [] then acc
        else
          let out := attemptBatch (oracle p.1) 0 MAX_RETRIES
          let results :=
            match out.result with
            | some r => r
            | none =>
                batch.map fun _ =>
                  ⟨"error", some (out.lastError.getD "Unknown error after retries"), none, none⟩
          ⟨acc.data ++ results, acc.delays ++ out.delays,
            acc.batchCalls ++ List.replicate out.calls batch.length⟩)
      ⟨[], [], []⟩

/-! ## The feeding reminder engine
(`calculateNextFeedingTime` in src/services/feedingReminderService.ts) -/

def dayNames : List String :=
  ["sunday", "monday", "tuesday", "wednesday", "thursday", "friday", "saturday"]

/-- `calculateNextFeedingTime(time, days, timezone)` evaluated at instant
`now`.  `time` is the parsed `'HH:MM'` pair (the source returns null when
parsing fails); `days` is the raw comma-separated day-name string, matched
by substring (`days.toLowerCase().includes(dayName)`), exactly as in the
source.  `toZonedTime` is `tz.toLocal` and `fromZonedTime` is
`tz.fromLocal`; `formatInTimeZone(d, tz, 'yyyy-MM-dd')` is the civil date
of `tz.toLocal d`. -/
def calculateNextFeedingTime (time : TimeHM) (days : String) (tz : Timezone) (now : Int) :
    Option Int :=
  let nowInTz := tz.toLocal now
  let todayDayIndex := getUTCDay nowInTz
  let todayName := dayNames.getD todayDayIndex.toNat "sunday"
  let todayCivil := civilOf (tz.toLocal now)
  let todayFeedingTimeUTC :=
    tz.fromLocal (daysFromCivil todayCivil.year todayCivil.month todayCivil.day * msPerDay
      + time.hour * msPerHour + time.minute * msPerMinute)
  if strIncludes (strToLower days) todayName ∧ now < todayFeedingTimeUTC then
    some todayFeedingTimeUTC
  else
    (List.range 7).findSome? fun j =>
      let i : Int := (j : Int) + 1
      let nextDayDate := nowInTz + i * msPerDay
      let nextDayName := dayNames.getD (getUTCDay nextDayDate).toNat "sunday"
      if strIncludes (strToLower days) nextDayName then
        let c := civilOf (tz.toLocal nextDayDate)
        some (tz.fromLocal (daysFromCivil c.year c.month c.day * msPerDay
          + time.hour * msPerHour + time.minute * msPerMinute))
      else none

/-! ## The event reminder scheduler (src/services/eventReminderService.ts) -/

/-- What `pushNotificationService.sendToUser` reported for one dispatch. -/
structure SendToUserResult where
  sent : Nat
  failed : Nat
  tokensToRemove : List String
deriving DecidableEq

/-- A `ScheduledNotification` ledger row as `scheduleReminders` creates
it. -/
structure LedgerRow where
  userId : Int
  eventId : Int
  expoPushToken : String
  scheduledFor : Int
  sentAt : Int
  status : String
  notificationId : String
deriving DecidableEq

/-- One push dispatch performed by `scheduleReminders`: the instant the
push was actually sent and the reminder offset/trigger it was for. -/
structure Dispatch where
  dispatchedAt : Int
  offsetMinutes : Int
  triggerTime : Int
deriving DecidableEq

structure EventReminderConfig where
  eventId : Int
  userId : Int
  startTime : Int
  reminderMinutes : List Int
deriving DecidableEq

/-- `getReminderMinutesForPreset(preset)`. -/
def getReminderMinutesForPreset (preset : String) : List Int :=
  if preset = "standard" then [1440, 120, 60, 15]
  else if preset = "compact" then [60, 15]
  else if preset = "minimal" then [15]
  else [1440, 120, 60, 15]

/-- `scheduleReminders(config)` at invocation instant `now`: for every
reminder offset whose trigger `startTime − minutes` is still in the
future, imm­ediately dispatch a push via the gateway (`sendOutcome m` is
what `sendToUser` returned for offset `m`) and, when at least one device
delivery succeeded, append a ledger row with `status = 'sent'`, `sentAt =
now` and `scheduledFor = trigger`.  The input `ledger` is never read —
only appended to. -/
def remindersGo (cfg : EventReminderConfig) (devices : List String) (now : Int)
    (sendOutcome : Int → SendToUserResult) :
    List Int → List Dispatch × List LedgerRow × Nat
  | [] => ([], [], 0)
  | m :: rest =>
      let triggerTime := cfg.startTime - m * msPerMinute
      if triggerTime ≤ now then remindersGo cfg devices now sendOutcome rest
      else
        let result := sendOutcome m
        let r := remindersGo cfg devices now sendOutcome rest
        if 0 < result.sent then
          (⟨now, m, triggerTime⟩ :: r.1,
            (⟨cfg.userId, cfg.eventId, devices.headD "", triggerTime, now, "sent",
              "reminder-" ++ toString cfg.eventId ++ "-" ++ toString m⟩ : LedgerRow) :: r.2.1,
            result.sent + r.2.2)
        else (⟨now, m, triggerTime⟩ :: r.1, r.2.1, r.2.2)

def scheduleReminders (cfg : EventReminderConfig) (devices : List String) (now : Int)
    (sendOutcome : Int → SendToUserResult) (ledger : List LedgerRow) :
    List Dispatch × List LedgerRow × Nat :=
  if devices = [] then ([], ledger, 0)
  else
    let r := remindersGo cfg devices now sendOutcome cfg.reminderMinutes
    (r.1, ledger ++ r.2.1, r.2.2)

/-! ## Proofs -/

theorem yoeNum_mono {x y : Int} (hxy : x ≤ y) : yoeNum x ≤ yoeNum y := by
  unfold yoeNum; omega

theorem yoeOf_mono {x y : Int} (hxy : x ≤ y) : yoeOf x ≤ yoeOf y := by
  have h := yoeNum_mono hxy
  unfold yoeOf; omega

theorem dstart_mono {x y : Int} (h : x ≤ y) : dstart x ≤ dstart y := by
  unfold dstart; omega

theorem dstart_succ_le (y : Int) : dstart (y + 1) ≤ dstart y + 366 := by
  unfold dstart; omega

theorem dstart_succ_ge (y : Int) : dstart y + 365 ≤ dstart (y + 1) := by
  unfold dstart; omega

theorem boundary_fst (y : Int) (h0 : 0 ≤ y) (h1 : y ≤ 399) :
    yoeOf (dstart y) = y := by
  have he : (365 * y + y / 4 - y / 100) / 1460 = y / 4 := by omega
  have hf : (365 * y + y / 4 - y / 100) / 36524 = y / 100 := by omega
  have hg : (365 * y + y / 4 - y / 100) / 146096 = 0 := by omega
  unfold yoeOf yoeNum dstart
  rw [he, hf, hg]
  omega

theorem boundary_snd (y : Int) (h0 : 0 ≤ y) (h1 : y ≤ 399) :
    yoeOf (dstart (y + 1) - 1) = y := by
  have he : (365 * (y + 1) + (y + 1) / 4 - (y + 1) / 100 - 1) / 1460 = (y + 1) / 4 := by
    omega
  have hf : (365 * (y + 1) + (y + 1) / 4 - (y + 1) / 100 - 1) / 36524 = y / 100 := by
    omega
  have hg : (365 * (y + 1) + (y + 1) / 4 - (y + 1) / 100 - 1) / 146096 = 0 := by
    omega
  unfold yoeOf yoeNum dstart
  rw [he, hf, hg]
  omega

/-- Within an era, the year-of-era computation of `civilFromDays` places
`doe` in a year that actually contains it. -/
theorem yoe_correct (doe : Int) (h1 : 0 ≤ doe) (h2 : doe ≤ 146096) :
    0 ≤ yoeOf doe ∧ yoeOf doe ≤ 399 ∧
    dstart (yoeOf doe) ≤ doe ∧ doe - dstart (yoeOf doe) ≤ 365 := by
  have hy : 0 ≤ yoeOf doe ∧ yoeOf doe ≤ 399 := by unfold yoeOf yoeNum; omega
  obtain ⟨hy0, hy399⟩ := hy
  refine ⟨hy0, hy399, ?_, ?_⟩
  · by_contra hlt
    push_neg at hlt
    rcases eq_or_lt_of_le hy0 with h0 | hpos
    · rw [← h0] at hlt
      have hz : dstart 0 = 0 := by decide
      omega
    · have hb := boundary_snd (yoeOf doe - 1) (by omega) (by omega)
      have heq : yoeOf doe - 1 + 1 = yoeOf doe := by ring
      rw [heq] at hb
      have hub : dstart (yoeOf doe) - 1 ≤ 146096 := by
        have h4 := dstart_mono (show yoeOf doe ≤ 400 by omega)
        have h5 : dstart 400 = 146096 := by decide
        omega
      have hmono := yoeOf_mono (show doe ≤ dstart (yoeOf doe) - 1 by omega)
      omega
  · rcases eq_or_lt_of_le hy399 with h399 | hlt399
    · rw [h399]
      have h6 : dstart 399 = 145731 := by decide
      omega
    · by_contra hgt
      push_neg at hgt
      have hb := boundary_fst (yoeOf doe + 1) (by omega) (by omega)
      have hlen := dstart_succ_le (yoeOf doe)
      have hmono := yoeOf_mono (show dstart (yoeOf doe + 1) ≤ doe by omega)
      omega

/-- If `doy` days into year-of-era `y` stays inside that year, the
year-of-era computation recovers `y`. -/
theorem yoeOf_dstart_add (y doy : Int) (h0 : 0 ≤ y) (h1 : y ≤ 399) (hd0 : 0 ≤ doy)
    (hlen : dstart y + doy ≤ 146096) (hup : y ≤ 398 → dstart y + doy < dstart (y + 1)) :
    yoeOf (dstart y + doy) = y := by
  have hbf := boundary_fst y h0 h1
  have hm1 := yoeOf_mono (show dstart y ≤ dstart y + doy by omega)
  rcases eq_or_lt_of_le h1 with h399 | hlt
  · have hc := yoe_correct (dstart y + doy)
      (by
        have h7 := dstart_mono h0
        have hz : dstart 0 = 0 := by decide
        omega)
      hlen
    obtain ⟨hc0, hc399, hc2, hc3⟩ := hc
    omega
  · have hup' := hup (by omega)
    have hbs := boundary_snd y h0 h1
    have hm2 := yoeOf_mono (show dstart y + doy ≤ dstart (y + 1) - 1 by omega)
    omega

/-- Left inverse: reading the civil date of a day number and converting it
back yields the same day number (`daysFromCivil ∘ civilFromDays = id`). -/
theorem daysFromCivil_civilFromDays (n : Int) :
    daysFromCivil (civilFromDays n).year (civilFromDays n).month (civilFromDays n).day = n := by
  have hdoe0 : 0 ≤ n + 719468 - (n + 719468) / 146097 * 146097 := by omega
  have hdoe1 : n + 719468 - (n + 719468) / 146097 * 146097 ≤ 146096 := by omega
  have hc := yoe_correct (n + 719468 - (n + 719468) / 146097 * 146097) hdoe0 hdoe1
  unfold yoeOf yoeNum dstart at hc
  unfold civilFromDays daysFromCivil
  simp only
  set b : Int := (n + 719468) / 146097 with hb
  set doe : Int := n + 719468 - b * 146097 with hdoe
  set yoe : Int := (doe - doe / 1460 + doe / 36524 - doe / 146096) / 365 with hyoe
  set doy : Int := doe - (365 * yoe + yoe / 4 - yoe / 100) with hdoy
  set mp : Int := (5 * doy + 2) / 153 with hmp
  obtain ⟨hc1, hc2, hc3, hc4⟩ := hc
  have hmpb : 0 ≤ mp ∧ mp ≤ 11 := by omega
  have hk : (yoe + b * 400) / 400 = b := by omega
  split_ifs <;> (try simp only [add_sub_cancel_right, sub_add_cancel]) <;>
    first
      | omega
      | (rw [hk]; simp only [add_sub_cancel_right]; omega)

theorem daysInMonth_le (y m : Int) : daysInMonth y m ≤ 31 := by
  unfold daysInMonth
  split_ifs <;> omega

set_option maxHeartbeats 1000000 in
/-- Core of the right-inverse proof: reconstruction of an era-decomposed
civil date by `civilFromDays`. -/
theorem civilFromDays_reconstruct (E YOE MP d : Int)
    (hyoeB : 0 ≤ YOE ∧ YOE ≤ 399)
    (hmpB : 0 ≤ MP ∧ MP ≤ 11)
    (hd1 : 1 ≤ d)
    (hdmp : (153 * MP + 2) / 5 + d - 1 < (153 * (MP + 1) + 2) / 5)
    (hdoyB : (153 * MP + 2) / 5 + d - 1 ≤ 365)
    (hup : YOE ≤ 398 →
      dstart YOE + ((153 * MP + 2) / 5 + d - 1) < dstart (YOE + 1)) :
    civilFromDays
        (E * 146097 + (YOE * 365 + YOE / 4 - YOE / 100 + ((153 * MP + 2) / 5 + d - 1)) - 719468)
      = ⟨if (if MP < 10 then MP + 3 else MP - 9) ≤ 2 then YOE + E * 400 + 1 else YOE + E * 400,
         if MP < 10 then MP + 3 else MP - 9, d⟩ := by
  have hd0 : 0 ≤ (153 * MP + 2) / 5 + d - 1 := by omega
  have hrec := yoeOf_dstart_add YOE ((153 * MP + 2) / 5 + d - 1) hyoeB.1 hyoeB.2 hd0
    (by
      have h399 := dstart_mono (show YOE ≤ 399 by omega)
      have hv : dstart 399 = 145731 := by decide
      omega)
    hup
  unfold yoeOf yoeNum dstart at hrec
  generalize hDOY : (153 * MP + 2) / 5 + d - 1 = DOY at *
  generalize hDOE : YOE * 365 + YOE / 4 - YOE / 100 + DOY = DOE at *
  have hDOEb : 0 ≤ DOE ∧ DOE ≤ 146096 := by
    have h399 := dstart_mono (show YOE ≤ 399 by omega)
    have h0' := dstart_mono (show (0 : Int) ≤ YOE by omega)
    have hv : dstart 399 = 145731 := by decide
    have hz : dstart 0 = 0 := by decide
    unfold dstart at h399 h0' hv hz
    omega
  have hDOE' : 365 * YOE + YOE / 4 - YOE / 100 + DOY = DOE := by omega
  rw [hDOE'] at hrec
  unfold civilFromDays
  simp only
  have h1 : (E * 146097 + DOE - 719468 + 719468) / 146097 = E := by omega
  rw [h1]
  have h2 : E * 146097 + DOE - 719468 + 719468 - E * 146097 = DOE := by omega
  rw [h2, hrec]
  have h4 : DOE - (365 * YOE + YOE / 4 - YOE / 100) = DOY := by omega
  rw [h4]
  have h5 : (5 * DOY + 2) / 153 = MP := by omega
  rw [h5]
  have h6 : DOY - (153 * MP + 2) / 5 + 1 = d := by omega
  rw [h6]

set_option maxHeartbeats 1000000 in
/-- Right inverse: converting a valid civil date to a day number and back
yields the same civil date (`civilFromDays ∘ daysFromCivil = id`). -/
theorem civilFromDays_daysFromCivil (y m d : Int)
    (hm1 : 1 ≤ m) (hm2 : m ≤ 12) (hd1 : 1 ≤ d) (hd2 : d ≤ daysInMonth y m) :
    civilFromDays (daysFromCivil y m d) = ⟨y, m, d⟩ := by
  by_cases hm23 : m ≤ 2
  · -- January / February: the March-based year is `y - 1`
    have hER : 0 ≤ (y - 1) - (y - 1) / 400 * 400 ∧ (y - 1) - (y - 1) / 400 * 400 ≤ 399 := by
      omega
    have hdFeb : m = 2 → d ≤ 29 ∧
        (d = 29 → ((y - 1) - (y - 1) / 400 * 400 + 1) % 4 = 0 ∧
          (((y - 1) - (y - 1) / 400 * 400 + 1) % 100 ≠ 0 ∨ (y - 1) - (y - 1) / 400 * 400 = 399)) := by
      intro h2
      have hd2' := hd2
      unfold daysInMonth at hd2'
      rw [if_pos h2] at hd2'
      by_cases hl : isLeapYear y
      · rw [if_pos hl] at hd2'
        unfold isLeapYear at hl
        simp only [Bool.or_eq_true, Bool.and_eq_true, beq_iff_eq, bne_iff_ne] at hl
        exact ⟨by omega, fun _ => by omega⟩
      · rw [if_neg hl] at hd2'
        omega
    have hd31' : m = 1 → d ≤ 31 := fun _ => le_trans hd2 (daysInMonth_le y m)
    have hcore := civilFromDays_reconstruct ((y - 1) / 400) ((y - 1) - (y - 1) / 400 * 400)
      (m + 9) d hER (by omega) hd1
      (by
        by_cases h2 : m = 2
        · have := (hdFeb h2).1
          subst h2
          omega
        · have hm1' : m = 1 := by omega
          have := hd31' hm1'
          subst hm1'
          omega)
      (by
        by_cases h2 : m = 2
        · have := (hdFeb h2).1
          subst h2
          omega
        · have hm1' : m = 1 := by omega
          have := hd31' hm1'
          subst hm1'
          omega)
      (by
        intro h398
        unfold dstart
        by_cases h2 : m = 2
        · have hF := hdFeb h2
          subst h2
          omega
        · have hm1' : m = 1 := by omega
          have := hd31' hm1'
          subst hm1'
          omega)
    have harg : daysFromCivil y m d =
        (y - 1) / 400 * 146097 +
          (((y - 1) - (y - 1) / 400 * 400) * 365 + ((y - 1) - (y - 1) / 400 * 400) / 4 -
              ((y - 1) - (y - 1) / 400 * 400) / 100 + ((153 * (m + 9) + 2) / 5 + d - 1)) - 719468 := by
      unfold daysFromCivil
      simp only
      rw [if_pos hm23, if_neg (by omega : ¬ m > 2)]
    rw [harg, hcore]
    have hmB : ¬ (m + 9 < 10) := by omega
    rw [if_neg hmB]
    have hmB2 : m + 9 - 9 ≤ 2 := by omega
    rw [if_pos hmB2]
    simp only [CivilDate.mk.injEq]
    exact ⟨by omega, by omega, trivial⟩
  · -- March … December: the March-based year is `y`
    have hER : 0 ≤ y - y / 400 * 400 ∧ y - y / 400 * 400 ≤ 399 := by omega
    have hd31 : d ≤ 31 := le_trans hd2 (daysInMonth_le y m)
    have hd30 : m = 4 ∨ m = 6 ∨ m = 9 ∨ m = 11 → d ≤ 30 := by
      intro h30
      have hd2' := hd2
      unfold daysInMonth at hd2'
      rw [if_neg (by omega : ¬ m = 2), if_pos h30] at hd2'
      exact hd2'
    have hcore := civilFromDays_reconstruct (y / 400) (y - y / 400 * 400) (m - 3) d hER
      (by omega) hd1
      (by
        by_cases h30 : m = 4 ∨ m = 6 ∨ m = 9 ∨ m = 11
        · have := hd30 h30
          omega
        · interval_cases m <;> omega)
      (by omega)
      (by
        intro h398
        unfold dstart
        omega)
    have harg : daysFromCivil y m d =
        y / 400 * 146097 +
          ((y - y / 400 * 400) * 365 + (y - y / 400 * 400) / 4 -
              (y - y / 400 * 400) / 100 + ((153 * (m - 3) + 2) / 5 + d - 1)) - 719468 := by
      unfold daysFromCivil
      simp only
      rw [if_neg hm23, if_pos (by omega : m > 2)]
    rw [harg, hcore]
    have hmB : m - 3 < 10 := by omega
    rw [if_pos hmB]
    have hmB2 : ¬ (m - 3 + 3 ≤ 2) := by omega
    rw [if_neg hmB2]
    simp only [CivilDate.mk.injEq]
    exact ⟨by omega, by omega, trivial⟩

/-- Day `0` of month `m + 1` is day `daysInMonth y m` of month `m`. -/
theorem daysFromCivil_day_zero (y m : Int) (hm1 : 1 ≤ m) (hm2 : m ≤ 12) :
    daysFromCivil y (m + 1) 0 = daysFromCivil y m (daysInMonth y m) := by
  unfold daysFromCivil daysInMonth isLeapYear
  simp only
  by_cases h2 : m = 2
  · subst h2
    simp only [Bool.or_eq_true, Bool.and_eq_true, beq_iff_eq, bne_iff_ne]
    norm_num
    split_ifs <;> omega
  · interval_cases m <;> omega

theorem lastDayOfMonthJS_eq (y m0 : Int) (h0 : 0 ≤ m0) (h1 : m0 ≤ 11) :
    lastDayOfMonthJS y m0 = daysInMonth y (m0 + 1) := by
  unfold lastDayOfMonthJS getUTCDate civilOf dayNumber
  have hdiv : daysFromCivil y (m0 + 1 + 1) 0 * msPerDay / msPerDay
      = daysFromCivil y (m0 + 1 + 1) 0 := by
    unfold msPerDay
    omega
  rw [hdiv, daysFromCivil_day_zero y (m0 + 1) (by omega) (by omega)]
  have hdm : 1 ≤ daysInMonth y (m0 + 1) := by
    unfold daysInMonth
    split_ifs <;> omega
  rw [civilFromDays_daysFromCivil y (m0 + 1) (daysInMonth y (m0 + 1)) (by omega) (by omega) hdm
    le_rfl]


/-! ### Event reminder scheduler lemmas -/

theorem remindersGo_dispatches (cfg : EventReminderConfig) (devices : List String) (now : Int)
    (send : Int → SendToUserResult) :
    ∀ (l : List Int), ∀ m ∈ l, now < cfg.startTime - m * msPerMinute →
      (⟨now, m, cfg.startTime - m * msPerMinute⟩ : Dispatch) ∈
        (remindersGo cfg devices now send l).1 := by
  intro l
  induction l with
  | nil => intro m hm; exact absurd hm (List.not_mem_nil m)
  | cons a rest ih =>
      intro m hm hfut
      rcases List.mem_cons.mp hm with rfl | hm'
      · simp only [remindersGo]
        rw [if_neg (by omega)]
        split_ifs <;> exact List.mem_cons_self _ _
      · simp only [remindersGo]
        split_ifs <;>
          first
            | exact ih m hm' hfut
            | exact List.mem_cons_of_mem _ (ih m hm' hfut)

theorem remindersGo_rows (cfg : EventReminderConfig) (devices : List String) (now : Int)
    (send : Int → SendToUserResult) :
    ∀ (l : List Int), ∀ row ∈ (remindersGo cfg devices now send l).2.1,
      row.status = "sent" ∧ row.sentAt = now ∧ now < row.scheduledFor := by
  intro l
  induction l with
  | nil => intro row hrow; exact absurd hrow (List.not_mem_nil row)
  | cons a rest ih =>
      intro row hrow
      simp only [remindersGo] at hrow
      split_ifs at hrow with h1 h2
      · exact ih row hrow
      · rcases List.mem_cons.mp hrow with rfl | hrow'
        · refine ⟨rfl, rfl, ?_⟩
          show now < cfg.startTime - a * msPerMinute
          omega
        · exact ih row hrow'
      · exact ih row hrow

/-- C10: on each invocation of `scheduleReminders` (hence on every
15-minute tick for every occurrence in the 7-day window), each reminder
offset whose trigger `startTime − offset` is still in the future is pushed
immediately — the dispatch happens at the invocation instant `now`, not at
the trigger instant — and the ledger row it creates has `status = 'sent'`,
`sentAt = now`, and a still-future `scheduledFor`; the input ledger is
never consulted, so the dispatched set is independent of it and a later
invocation re-dispatches every trigger that is still future. -/
theorem scheduleReminders_immediate_dispatch
    (cfg : EventReminderConfig) (devices : List String) (now : Int)
    (send : Int → SendToUserResult) (ledger : List LedgerRow)
    (hdev : devices ≠ []) :
    (∀ m ∈ cfg.reminderMinutes, now < cfg.startTime - m * msPerMinute →
        (⟨now, m, cfg.startTime - m * msPerMinute⟩ : Dispatch) ∈
          (scheduleReminders cfg devices now send ledger).1) ∧
    (∀ row ∈ (scheduleReminders cfg devices now send ledger).2.1, row ∉ ledger →
        row.status = "sent" ∧ row.sentAt = now ∧ now < row.scheduledFor) ∧
    (∀ ledger' : List LedgerRow,
        (scheduleReminders cfg devices now send ledger').1 =
          (scheduleReminders cfg devices now send ledger).1) := by
  refine ⟨?_, ?_, ?_⟩
  · intro m hm hfut
    simp only [scheduleReminders, if_neg hdev]
    exact remindersGo_dispatches cfg devices now send cfg.reminderMinutes m hm hfut
  · intro row hrow hnot
    simp only [scheduleReminders, if_neg hdev] at hrow
    rcases List.mem_append.mp hrow with h | h
    · exact absurd h hnot
    · exact remindersGo_rows cfg devices now send cfg.reminderMinutes row h
  · intro ledger'
    simp only [scheduleReminders, if_neg hdev]

theorem scheduleReminders_immediate_dispatch_witness :
    (⟨0, 60, 3600000⟩ : Dispatch) ∈
      (scheduleReminders ⟨1, 2, 7200000, [1440, 120, 60, 15]⟩ ["tok"] 0
        (fun _ => ⟨1, 0, []⟩) []).1 :=
  (scheduleReminders_immediate_dispatch ⟨1, 2, 7200000, [1440, 120, 60, 15]⟩ ["tok"] 0
    (fun _ => ⟨1, 0, []⟩) [] (by decide)).1 60 (by decide) (by decide)

/-! ### Materializer lemmas -/

theorem generateEventsGo_mem_mono (rule : StoredRule) :
    ∀ (l : List Int) (i : Nat) (store : EventStore), ∀ e ∈ store,
      e ∈ (generateEventsGo rule i l store).1 := by
  intro l
  induction l with
  | nil => intro i store e he; simpa [generateEventsGo] using he
  | cons d rest ih =>
      intro i store e he
      simp only [generateEventsGo, processDate]
      cases hf : findOneByRuleStart store rule.id d with
      | some ev => exact ih (i + 1) store e he
      | none =>
          simp only [createEvent, hf, Option.isSome_none, Bool.false_eq_true, if_neg,
            reduceCtorEq, ite_false]
          exact ih (i + 1) (store ++ [_]) e (List.mem_append_left _ he)

theorem generateEventsGo_mem_src (rule : StoredRule) :
    ∀ (l : List Int) (i : Nat) (store : EventStore), ∀ e ∈ (generateEventsGo rule i l store).1,
      e ∈ store ∨ (e.ruleId = some rule.id ∧ e.startTime ∈ l ∧ e.userId = rule.userId ∧
        e.status = "upcoming" ∧ e.isException = false) := by
  intro l
  induction l with
  | nil => intro i store e he; exact Or.inl (by simpa [generateEventsGo] using he)
  | cons d rest ih =>
      intro i store e he
      simp only [generateEventsGo, processDate] at he
      cases hf : findOneByRuleStart store rule.id d with
      | some ev =>
          rw [hf] at he
          rcases ih (i + 1) store e he with h | h
          · exact Or.inl h
          · exact Or.inr ⟨h.1, List.mem_cons_of_mem _ h.2.1, h.2.2⟩
      | none =>
          rw [hf] at he
          simp only [createEvent, hf, Option.isSome_none, Bool.false_eq_true, if_neg,
            reduceCtorEq, ite_false] at he
          rcases ih (i + 1) _ e he with h | h
          · rcases List.mem_append.mp h with h' | h'
            · exact Or.inl h'
            · rcases List.mem_singleton.mp h' with rfl
              exact Or.inr ⟨rfl, List.mem_cons_self _ _, rfl, rfl, rfl⟩
          · exact Or.inr ⟨h.1, List.mem_cons_of_mem _ h.2.1, h.2.2⟩

theorem generateEvents_mem_mono (rule : StoredRule) (udt : TimeHM) (now : Int)
    (store : EventStore) : ∀ e ∈ store, e ∈ (generateEvents rule udt now store).1 := by
  intro e he
  unfold generateEvents generateEventsLoop
  split_ifs
  · exact generateEventsGo_mem_mono rule _ 0 store e he
  · exact he

theorem generateEvents_mem_src (rule : StoredRule) (udt : TimeHM) (now : Int)
    (store : EventStore) : ∀ e ∈ (generateEvents rule udt now store).1,
      e ∈ store ∨ (e.ruleId = some rule.id ∧
        e.startTime ∈ calculateRecurrenceDates rule.pattern
          (getHorizonForFrequency rule.pattern.frequency (rule.pattern.interval.getD 1))
          udt now) := by
  intro e he
  unfold generateEvents generateEventsLoop at he
  split_ifs at he
  · rcases generateEventsGo_mem_src rule _ 0 store e he with h | h
    · exact Or.inl h
    · exact Or.inr ⟨h.1, h.2.1⟩
  · exact Or.inl he

/-- C4: `regenerateEvents` leaves every exception occurrence
(`isException = true`) and every past occurrence (`startTime < now`)
untouched — such records are still present, unmodified, in the resulting
store — and anything it removed was a future, non-exception occurrence of
exactly this rule and user. -/
theorem regenerateEvents_frame (rule : StoredRule) (udt : TimeHM) (now : Int)
    (store : EventStore) :
    (∀ e ∈ store, e.isException = true ∨ e.startTime < now →
        e ∈ (regenerateEvents rule udt now store).1) ∧
    (∀ e ∈ store, e ∉ (regenerateEvents rule udt now store).1 →
        e.ruleId = some rule.id ∧ e.userId = rule.userId ∧ now ≤ e.startTime ∧
          e.isException = false) := by
  constructor
  · intro e he hprot
    have hdel : regenerateDeletes rule now e = false := by
      unfold regenerateDeletes
      rcases hprot with h | h
      · simp [h]
      · have : ¬ (now ≤ e.startTime) := by omega
        simp [this]
    have hsurv : e ∈ store.filter fun x => ¬ regenerateDeletes rule now x := by
      rw [List.mem_filter]
      exact ⟨he, by simp [hdel]⟩
    unfold regenerateEvents
    exact generateEvents_mem_mono rule udt now _ e hsurv
  · intro e he hnot
    by_cases hdel : regenerateDeletes rule now e = true
    · unfold regenerateDeletes at hdel
      simp only [Bool.and_eq_true, beq_iff_eq, bne_iff_ne, ne_eq, decide_eq_true_eq,
        Bool.not_eq_true] at hdel
      exact ⟨hdel.1.1.1, hdel.1.1.2, hdel.1.2, hdel.2⟩
    · exfalso
      apply hnot
      have hsurv : e ∈ store.filter fun x => ¬ regenerateDeletes rule now x := by
        rw [List.mem_filter]
        exact ⟨he, by simp [hdel]⟩
      unfold regenerateEvents
      exact generateEvents_mem_mono rule udt now _ e hsurv

theorem regenerateEvents_frame_witness :
    (⟨7, some 1, -5, none, "completed", 0, false⟩ : EventRec) ∈
      (regenerateEvents ⟨1, 7, ⟨.daily, some 1, [], none, none, [⟨9, 0⟩], utcTz, 0, some 100, []⟩,
          none, false⟩ ⟨9, 0⟩ 0
        [⟨7, some 1, -5, none, "completed", 0, false⟩]).1 :=
  (regenerateEvents_frame ⟨1, 7, ⟨.daily, some 1, [], none, none, [⟨9, 0⟩], utcTz, 0, some 100, []⟩,
      none, false⟩ ⟨9, 0⟩ 0 [⟨7, some 1, -5, none, "completed", 0, false⟩]).1
    ⟨7, some 1, -5, none, "completed", 0, false⟩ (by decide) (Or.inr (by decide))


theorem findOneByRuleStart_isSome_iff (store : EventStore) (rid d : Int) :
    (findOneByRuleStart store rid d).isSome ↔
      ∃ e ∈ store, e.ruleId = some rid ∧ e.startTime = d := by
  unfold findOneByRuleStart
  rw [List.find?_isSome]
  simp

theorem generateEventsGo_key_present (rule : StoredRule) :
    ∀ (l : List Int) (i : Nat) (store : EventStore), ∀ d ∈ l,
      (findOneByRuleStart (generateEventsGo rule i l store).1 rule.id d).isSome := by
  intro l
  induction l with
  | nil => intro i store d hd; exact absurd hd (List.not_mem_nil d)
  | cons d0 rest ih =>
      intro i store d hd
      rw [findOneByRuleStart_isSome_iff]
      rcases List.mem_cons.mp hd with rfl | hd'
      · simp only [generateEventsGo, processDate]
        cases hf : findOneByRuleStart store rule.id d with
        | some ev =>
            have hev : (findOneByRuleStart store rule.id d).isSome := by rw [hf]; rfl
            rw [findOneByRuleStart_isSome_iff] at hev
            obtain ⟨e, he, hkey⟩ := hev
            exact ⟨e, generateEventsGo_mem_mono rule rest (i + 1) store e he, hkey⟩
        | none =>
            simp only [createEvent, hf, Option.isSome_none, Bool.false_eq_true, if_neg,
              reduceCtorEq, ite_false]
            refine ⟨_, generateEventsGo_mem_mono rule rest (i + 1) _ _
              (List.mem_append_right store (List.mem_singleton_self _)), rfl, rfl⟩
      · simp only [generateEventsGo, processDate]
        cases hf : findOneByRuleStart store rule.id d0 with
        | some ev =>
            have := ih (i + 1) store d hd'
            rw [findOneByRuleStart_isSome_iff] at this
            exact this
        | none =>
            simp only [createEvent, hf, Option.isSome_none, Bool.false_eq_true, if_neg,
              reduceCtorEq, ite_false]
            have := ih (i + 1)
              (store ++ [⟨rule.userId, some rule.id, d0,
                rule.eventDurationMinutes.map fun dur => d0 + dur * msPerMinute,
                "upcoming", i, false⟩]) d hd'
            rw [findOneByRuleStart_isSome_iff] at this
            exact this

theorem generateEventsGo_noop (rule : StoredRule) :
    ∀ (l : List Int) (i : Nat) (store : EventStore),
      (∀ d ∈ l, (findOneByRuleStart store rule.id d).isSome) →
      generateEventsGo rule i l store = (store, 0) := by
  intro l
  induction l with
  | nil => intro i store _; rfl
  | cons d0 rest ih =>
      intro i store h
      have h0 := h d0 (List.mem_cons_self d0 rest)
      cases hf : findOneByRuleStart store rule.id d0 with
      | none => rw [hf] at h0; exact absurd h0 (by simp)
      | some ev =>
          simp only [generateEventsGo, processDate, hf]
          rw [ih (i + 1) store fun d hd => h d (List.mem_cons_of_mem d0 hd)]
          rfl

/-- C2: a second run of `generateEvents` with the clock, rule state and
user settings unchanged creates no new occurrence and leaves the store
exactly as the first run left it; and a duplicate-key violation raised by
the store during an insert (possible when the lookup used a stale snapshot,
e.g. under concurrent invocation) is swallowed as a successful no-op rather
than surfaced as an error. -/
theorem generateEvents_idempotent (rule : StoredRule) (udt : TimeHM) (now : Int)
    (store : EventStore) :
    (generateEvents rule udt now (generateEvents rule udt now store).1).1
        = (generateEvents rule udt now store).1 ∧
    (generateEvents rule udt now (generateEvents rule udt now store).1).2 = 0 ∧
    (∀ (lookupStore insertStore : EventStore) (i : Nat) (d : Int),
        findOneByRuleStart lookupStore rule.id d = none →
        (findOneByRuleStart insertStore rule.id d).isSome →
        processDate rule i d lookupStore insertStore = .ok (insertStore, 0)) := by
  refine ⟨?_, ?_, ?_⟩
  · by_cases hact : rule.isActive
    · simp only [generateEvents, generateEventsLoop, if_pos hact]
      rw [generateEventsGo_noop rule _ 0 _ fun d hd =>
        generateEventsGo_key_present rule _ 0 store d hd]
    · simp [generateEvents, hact]
  · by_cases hact : rule.isActive
    · simp only [generateEvents, generateEventsLoop, if_pos hact]
      rw [generateEventsGo_noop rule _ 0 _ fun d hd =>
        generateEventsGo_key_present rule _ 0 store d hd]
    · simp [generateEvents, hact]
  · intro lookupStore insertStore i d hlook hins
    simp only [processDate, hlook, createEvent]
    rw [if_pos hins]

theorem generateEvents_idempotent_witness :
    (generateEvents ⟨1, 7, ⟨.daily, some 1, [], none, none, [⟨9, 0⟩], utcTz, 0, some 100, []⟩,
        none, true⟩ ⟨9, 0⟩ 0
      (generateEvents ⟨1, 7, ⟨.daily, some 1, [], none, none, [⟨9, 0⟩], utcTz, 0, some 100, []⟩,
        none, true⟩ ⟨9, 0⟩ 0 []).1).2 = 0 ∧
    processDate ⟨1, 7, ⟨.daily, some 1, [], none, none, [⟨9, 0⟩], utcTz, 0, some 100, []⟩,
        none, true⟩ 0 60000 []
      [⟨7, some 1, 60000, none, "upcoming", 0, false⟩]
      = .ok ([⟨7, some 1, 60000, none, "upcoming", 0, false⟩], 0) :=
  ⟨(generateEvents_idempotent ⟨1, 7,
      ⟨.daily, some 1, [], none, none, [⟨9, 0⟩], utcTz, 0, some 100, []⟩, none, true⟩
      ⟨9, 0⟩ 0 []).2.1,
    (generateEvents_idempotent ⟨1, 7,
      ⟨.daily, some 1, [], none, none, [⟨9, 0⟩], utcTz, 0, some 100, []⟩, none, true⟩
      ⟨9, 0⟩ 0 []).2.2 [] [⟨7, some 1, 60000, none, "upcoming", 0, false⟩] 0 60000
      (by decide) (by decide)⟩

/-! ### Budget alert engine proofs -/

/-- C7 counterexample: with no previous alert, spending at 150 % of the
budget and a delivery that fails (`sendBudgetAlert` reports
`success = false`), the per-budget body of `sendAlertsToAllUsers` still
stamps `lastAlertPeriod`/`lastAlertSeverity`, contradicting the claim that
the alert-state fields remain unchanged when the send fails. -/
theorem processBudgetAlert_stamps_despite_failure :
    (processBudgetAlert ⟨100, 4/5, true, none, none, none, none⟩ 150 0
        (fun _ => ⟨false, 0⟩)).2 = some (Severity.critical, ⟨false, 0⟩) ∧
    (processBudgetAlert ⟨100, 4/5, true, none, none, none, none⟩ 150 0
        (fun _ => ⟨false, 0⟩)).1.lastAlertPeriod = some "1970-01" ∧
    (⟨100, 4/5, true, none, none, none, none⟩ : BudgetState).lastAlertPeriod = none := by
  have hpk : periodKeyOf 0 = "1970-01" := by decide
  refine ⟨?_, ?_, rfl⟩ <;>
  · simp only [processBudgetAlert, hpk]
    norm_num
    simp

/-- C7 amended: `sendAlertsToAllUsers` stamps `lastAlertAt` /
`lastAlertSeverity` / `lastAlertPeriod` / `lastAlertPercentage` after every
*attempted* send, regardless of whether delivery succeeded —
`sendBudgetAlert` catches all delivery errors and reports mere failure —
while evaluations that skip the send (dedup or threshold) leave the
alert-state fields unchanged. -/
theorem processBudgetAlert_stamp_iff_attempt (budget : BudgetState) (sp : ℚ) (now : Int)
    (send : Severity → SendBudgetAlertResult) :
    (∀ sev res, (processBudgetAlert budget sp now send).2 = some (sev, res) →
        (processBudgetAlert budget sp now send).1.lastAlertPeriod = some (periodKeyOf now) ∧
        (processBudgetAlert budget sp now send).1.lastAlertSeverity = some sev ∧
        (processBudgetAlert budget sp now send).1.lastAlertAt = some now ∧
        res = send sev) ∧
    ((processBudgetAlert budget sp now send).2 = none →
        (processBudgetAlert budget sp now send).1 = budget) := by
  simp only [processBudgetAlert]
  split_ifs <;>
    first
      | exact ⟨fun sev res h => absurd h (by simp), fun _ => rfl⟩
      | (refine ⟨fun sev res h => ?_, fun h => absurd h (by simp)⟩
         simp only [Option.some.injEq, Prod.mk.injEq] at h
         obtain ⟨hsev, hres⟩ := h
         subst hsev
         exact ⟨rfl, rfl, rfl, hres.symm⟩)

theorem processBudgetAlert_stamp_iff_attempt_witness :
    (processBudgetAlert ⟨100, 4/5, true, none, none, none, none⟩ 150 0
        (fun _ => ⟨true, 1⟩)).1.lastAlertPeriod = some (periodKeyOf 0) := by
  have h : (processBudgetAlert ⟨100, 4/5, true, none, none, none, none⟩ 150 0
      (fun _ => ⟨true, 1⟩)).2 = some (Severity.critical, ⟨true, 1⟩) := by
    have hpk : periodKeyOf 0 = "1970-01" := by decide
    simp only [processBudgetAlert, hpk]
    norm_num
    simp
  exact ((processBudgetAlert_stamp_iff_attempt ⟨100, 4/5, true, none, none, none, none⟩
      150 0 (fun _ => ⟨true, 1⟩)).1 Severity.critical ⟨true, 1⟩ h).1

/-- Whenever `checkBudgetAlert` returns an alert, the saved budget document
carries the alert's period and severity, and the pre-state could not
already have carried that period with `critical` or with the same
severity. -/
theorem checkBudgetAlert_send_inv (e1 e2 : Bool) (budget : BudgetState) (sp : ℚ)
    (now : Int) (a : BudgetAlert) (b' : BudgetState)
    (h : checkBudgetAlert e1 e2 budget sp now = (some a, b')) :
    b'.lastAlertPeriod = some (periodKeyOf now) ∧
    b'.lastAlertSeverity = some a.severity ∧
    ¬(budget.lastAlertPeriod = some (periodKeyOf now) ∧
      (budget.lastAlertSeverity = some Severity.critical ∨
        budget.lastAlertSeverity = some a.severity)) := by
  simp only [checkBudgetAlert] at h
  split_ifs at h <;>
    first
      | (simp at h
         done)
      | (simp only [Prod.mk.injEq, Option.some.injEq] at h
         obtain ⟨ha, hb⟩ := h
         subst ha
         subst hb
         refine ⟨rfl, rfl, ?_⟩
         assumption)

/-- C6: once a `critical` alert has been recorded for the current period,
`checkBudgetAlert` sends nothing more in that period — whatever the
percentage (in particular both 60 % and 150 %) — and two successive alerts
actually sent within one period always differ in severity (at most one
alert of a given severity per period). -/
theorem checkBudgetAlert_critical_suppression
    (e1 e2 e1' e2' : Bool) (budget : BudgetState) (sp sp' : ℚ) (now now' : Int) :
    (budget.lastAlertPeriod = some (periodKeyOf now) →
      budget.lastAlertSeverity = some Severity.critical →
      (checkBudgetAlert e1 e2 budget sp now).1 = none) ∧
    (∀ a b' a' b'', checkBudgetAlert e1 e2 budget sp now = (some a, b') →
      checkBudgetAlert e1' e2' b' sp' now' = (some a', b'') →
      periodKeyOf now' = periodKeyOf now → a'.severity ≠ a.severity) := by
  constructor
  · intro hp hs
    cases hres : checkBudgetAlert e1 e2 budget sp now with
    | mk fst snd =>
        cases fst with
        | none => rfl
        | some a =>
            have := checkBudgetAlert_send_inv e1 e2 budget sp now a snd hres
            exact absurd ⟨hp, Or.inl hs⟩ this.2.2
  · intro a b' a' b'' h1 h2 hper
    have i1 := checkBudgetAlert_send_inv e1 e2 budget sp now a b' h1
    have i2 := checkBudgetAlert_send_inv e1' e2' b' sp' now' a' b'' h2
    intro heq
    apply i2.2.2
    refine ⟨by rw [i1.1, hper], Or.inr ?_⟩
    rw [i1.2.1, heq]

theorem checkBudgetAlert_critical_suppression_witness :
    (checkBudgetAlert true true
        ⟨100, 4/5, true, some 0, some Severity.critical, some "1970-01", some 150⟩ 60 0).1
      = none ∧
    (checkBudgetAlert true true
        ⟨100, 4/5, true, some 0, some Severity.critical, some "1970-01", some 150⟩ 150 0).1
      = none :=
  ⟨(checkBudgetAlert_critical_suppression true true true true
      ⟨100, 4/5, true, some 0, some Severity.critical, some "1970-01", some 150⟩ 60 60 0 0).1
      (by decide) rfl,
    (checkBudgetAlert_critical_suppression true true true true
      ⟨100, 4/5, true, some 0, some Severity.critical, some "1970-01", some 150⟩ 150 150 0 0).1
      (by decide) rfl⟩

/-! ### Exception / regeneration proofs -/

theorem truncToMinute_idem (t : Int) : truncToMinute (truncToMinute t) = truncToMinute t := by
  unfold truncToMinute msPerMinute
  omega

theorem regenerateEvents_fst (rule : StoredRule) (udt : TimeHM) (now : Int)
    (store : EventStore) :
    (regenerateEvents rule udt now store).1 =
      (generateEvents rule udt now
        (store.filter fun e => ¬ regenerateDeletes rule now e)).1 := rfl

/-- Every date the expander emits survives the exclusion filter: its
minute truncation is not among the minute-truncated `excludedDates`. -/
theorem calculateRecurrenceDates_not_excluded (pat : RecurrenceRule) (h : Int) (udt : TimeHM)
    (now : Int) : ∀ d ∈ calculateRecurrenceDates pat h udt now,
      truncToMinute d ∉ pat.excludedDates.map truncToMinute := by
  intro d hd
  simp only [calculateRecurrenceDates, List.mem_flatMap, List.mem_range] at hd
  obtain ⟨k, -, hk⟩ := hd
  split_ifs at hk <;>
    first
      | exact absurd hk (List.not_mem_nil d)
      | (rw [List.mem_filterMap] at hk
         obtain ⟨t, -, ht⟩ := hk
         split_ifs at ht with hc hr
         rw [Option.some.injEq] at ht
         subst ht
         simpa using hc)
      | (rcases List.mem_singleton.mp hk with rfl
         simp_all)

/-- When the store holds at most one event keyed `(rid, st)` and every such
event belongs to `uid`, `deleteOne({rid, uid, st})` leaves no event with
that key. -/
theorem deleteOneEvent_no_key (rid uid st : Int) :
    ∀ store : EventStore,
      (store.countP fun e => e.ruleId == some rid && e.startTime == st) ≤ 1 →
      (∀ e ∈ store, e.ruleId = some rid → e.startTime = st → e.userId = uid) →
      ∀ e ∈ deleteOneEvent rid uid st store, e.ruleId = some rid → e.startTime ≠ st := by
  intro store
  induction store with
  | nil => intro _ _ e he; exact absurd he (List.not_mem_nil e)
  | cons a rest ih =>
      intro hcount hown e he hrid hst
      unfold deleteOneEvent at he
      by_cases hq : (a.ruleId == some rid && a.userId == uid && a.startTime == st) = true
      · rw [if_pos hq] at he
        have hpa : (a.ruleId == some rid && a.startTime == st) = true := by
          simp only [Bool.and_eq_true, beq_iff_eq] at hq ⊢
          exact ⟨hq.1.1, hq.2⟩
        have hzero : rest.countP (fun e => e.ruleId == some rid && e.startTime == st) = 0 := by
          simp only [List.countP_cons, hpa, if_true] at hcount
          omega
        have hno := List.countP_eq_zero.mp hzero e he
        simp only [Bool.and_eq_true, beq_iff_eq, not_and] at hno
        exact hno hrid hst
      · rw [if_neg hq] at he
        rcases List.mem_cons.mp he with rfl | hmem
        · exact hq (by
            simp only [Bool.and_eq_true, beq_iff_eq]
            exact ⟨⟨hrid, hown e (List.mem_cons_self _ _) hrid hst⟩, hst⟩)
        · have hrest : rest.countP (fun e => e.ruleId == some rid && e.startTime == st) ≤ 1 := by
            rw [List.countP_cons] at hcount
            omega
          exact ih hrest (fun x hx => hown x (List.mem_cons_of_mem _ hx)) e hmem hrid hst

/-- C5: when the pre-state satisfies the unique `(recurrenceRuleId,
startTime)` index (at most one event at the excluded key) and the rule's
events belong to the rule's user, a successful `addException(ruleId, T)`
followed by `regenerateEvents` yields a store in which no occurrence of
the rule starts at the minute-truncated `T`: the excluded slot stays
empty. -/
theorem addException_excludes_slot (rule : StoredRule) (store : EventStore) (date : Int)
    (udt : TimeHM) (now : Int)
    (hOwn : ∀ e ∈ store, e.ruleId = some rule.id → e.startTime = truncToMinute date →
      e.userId = rule.userId)
    (hUniq : (store.countP fun e => e.ruleId == some rule.id &&
      e.startTime == truncToMinute date) ≤ 1)
    (hOk : (addException rule store date).2.2 = true) :
    ∀ e ∈ (regenerateEvents (addException rule store date).1 udt now
        (addException rule store date).2.1).1,
      e.ruleId = some rule.id → e.startTime ≠ truncToMinute date := by
  have hnc : rule.pattern.excludedDates.contains (truncToMinute date) = false := by
    by_contra hc
    rw [Bool.not_eq_false] at hc
    have hc' : truncToMinute date ∈ rule.pattern.excludedDates := by simpa using hc
    simp [addException, hc'] at hOk
  intro e he hrid hst
  simp only [addException, hnc, Bool.false_eq_true, ite_false] at he
  rw [regenerateEvents_fst] at he
  rcases generateEvents_mem_src _ udt now _ e he with hmem | ⟨-, hmem⟩
  · exact deleteOneEvent_no_key rule.id rule.userId (truncToMinute date) store hUniq hOwn
      e (List.mem_filter.mp hmem).1 hrid hst
  · have hnotex := calculateRecurrenceDates_not_excluded _ _ udt now e.startTime hmem
    apply hnotex
    rw [hst, truncToMinute_idem]
    exact List.mem_map.mpr ⟨truncToMinute date, by simp, truncToMinute_idem date⟩

theorem addException_excludes_slot_witness :
    ((regenerateEvents
        (addException ⟨1, 7, ⟨.daily, some 1, [], none, none, [⟨9, 0⟩], utcTz, 0, some 100, []⟩,
          none, true⟩ [] (9 * msPerHour)).1 ⟨9, 0⟩ 0
        (addException ⟨1, 7, ⟨.daily, some 1, [], none, none, [⟨9, 0⟩], utcTz, 0, some 100, []⟩,
          none, true⟩ [] (9 * msPerHour)).2.1).1.filter
      fun e => e.ruleId == some 1 && e.startTime == truncToMinute (9 * msPerHour)) = [] := by
  rw [List.filter_eq_nil_iff]
  intro e hmem hp
  simp only [Bool.and_eq_true, beq_iff_eq] at hp
  exact addException_excludes_slot
    ⟨1, 7, ⟨.daily, some 1, [], none, none, [⟨9, 0⟩], utcTz, 0, some 100, []⟩, none, true⟩
    [] (9 * msPerHour) ⟨9, 0⟩ 0
    (fun e he => absurd he (List.not_mem_nil e)) (by decide) (by decide)
    e hmem hp.1 hp.2

/-! ### Push gateway proofs -/

theorem chunkArrayGo_nil (size fuel : Nat) : chunkArrayGo size fuel ([] : List α) = [] := by
  cases fuel <;> rfl

theorem chunkArrayGo_flatten (size : Nat) (hs : 1 ≤ size) :
    ∀ fuel (l : List α), l.length ≤ fuel → (chunkArrayGo size fuel l).flatten = l := by
  intro fuel
  induction fuel with
  | zero =>
      intro l hl
      have hn : l = [] := List.length_eq_zero.mp (by omega)
      subst hn
      simp [chunkArrayGo_nil]
  | succ n ih =>
      intro l hl
      cases l with
      | nil => simp [chunkArrayGo]
      | cons a as =>
          simp only [chunkArrayGo, List.flatten_cons]
          rw [ih _ (by simp only [List.length_drop, List.length_cons] at *; omega)]
          exact List.take_append_drop size (a :: as)

theorem chunkArrayGo_length_le (size : Nat) :
    ∀ fuel (l : List α) c, c ∈ chunkArrayGo size fuel l → c.length ≤ size := by
  intro fuel
  induction fuel with
  | zero => intro l c hc; cases l <;> simp [chunkArrayGo] at hc
  | succ n ih =>
      intro l c hc
      cases l with
      | nil => simp [chunkArrayGo] at hc
      | cons a as =>
          simp only [chunkArrayGo] at hc
          rcases List.mem_cons.mp hc with rfl | hmem
          · exact List.length_take_le size (a :: as)
          · exact ih _ c hmem

theorem chunkArray_single (l : List α) (h0 : l ≠ []) (h1 : l.length ≤ 100) :
    chunkArray l 100 = [l] := by
  cases l with
  | nil => exact absurd rfl h0
  | cons a as =>
      unfold chunkArray
      simp only [List.length_cons, chunkArrayGo]
      rw [List.take_of_length_le h1, List.drop_of_length_le h1, chunkArrayGo_nil]

/-- Two retryable 503 failures followed by a success: the loop makes three
provider calls, waits 1 s then 2 s, and returns the successful response. -/
theorem attemptBatch_retry_success (f : Nat → Except String (List ExpoPushResult))
    (rs : List ExpoPushResult)
    (hf0 : f 0 = .error "Expo API error: 503 - Service Unavailable")
    (hf1 : f 1 = .error "Expo API error: 503 - Service Unavailable")
    (hf2 : f 2 = .ok rs) :
    attemptBatch f 0 3 =
      ⟨some rs, some "Expo API error: 503 - Service Unavailable", [1000, 2000], 3⟩ := by
  have hre : isRetryableError "Expo API error: 503 - Service Unavailable" = true := by decide
  simp [attemptBatch, hf0, hf1, hf2, hre, INITIAL_RETRY_DELAY_MS]

/-- Three retryable failures: the loop makes three provider calls, waits
1 s then 2 s, and gives up carrying the last error. -/
theorem attemptBatch_exhausted (f : Nat → Except String (List ExpoPushResult)) (e : String)
    (hf : ∀ a, f a = .error e) (hre : isRetryableError e = true) :
    attemptBatch f 0 3 = ⟨none, some e, [1000, 2000], 3⟩ := by
  simp [attemptBatch, hf, hre, INITIAL_RETRY_DELAY_MS]

/-- `sendToExpo` on a single nonempty batch of at most 100 messages is one
run of the retry loop: its results (or per-message error entries), its
delays, and one provider call per attempt. -/
theorem sendToExpo_single (batch : List ExpoPushMessage)
    (oracle : Nat → Nat → Except String (List ExpoPushResult))
    (hb : batch ≠ []) (hlen : batch.length ≤ 100) :
    sendToExpo batch oracle =
      ⟨(match (attemptBatch (oracle 0) 0 MAX_RETRIES).result with
          | some r => r
          | none => batch.map fun _ =>
              ⟨"error", some ((attemptBatch (oracle 0) 0 MAX_RETRIES).lastError.getD
                "Unknown error after retries"), none, none⟩),
        (attemptBatch (oracle 0) 0 MAX_RETRIES).delays,
        List.replicate (attemptBatch (oracle 0) 0 MAX_RETRIES).calls batch.length⟩ := by
  have hchunk : chunkArray batch EXPO_BATCH_SIZE = [batch] := chunkArray_single batch hb hlen
  simp only [sendToExpo, if_neg hb, hchunk, List.enum, List.enumFrom, List.foldl_cons,
    List.foldl_nil]
  simp

set_option maxRecDepth 8000 in
/-- C8: the gateway splits any input into consecutive batches of at most
`EXPO_BATCH_SIZE = 100` (250 identical messages make exactly three
provider calls of sizes 100, 100, 50); a batch whose first two attempts
fail with a 503 and whose third succeeds is classified entirely from the
successful response after backoffs of 1 s and 2 s; a batch whose three
attempts all fail has every message marked `error` with the last error,
returned normally to the caller. -/
theorem sendToExpo_batching_retry (msgs batch : List ExpoPushMessage)
    (rs : List ExpoPushResult) (f g : Nat → Except String (List ExpoPushResult)) (e : String)
    (hb : batch ≠ []) (hblen : batch.length ≤ 100)
    (hf0 : f 0 = .error "Expo API error: 503 - Service Unavailable")
    (hf1 : f 1 = .error "Expo API error: 503 - Service Unavailable")
    (hf2 : f 2 = .ok rs)
    (hg : ∀ a, g a = .error e) (hre : isRetryableError e = true) :
    ((chunkArray msgs EXPO_BATCH_SIZE).flatten = msgs ∧
      ∀ c ∈ chunkArray msgs EXPO_BATCH_SIZE, c.length ≤ EXPO_BATCH_SIZE) ∧
    (sendToExpo (List.replicate 250 ⟨"t", "", ""⟩) (fun _ _ => .ok rs)).batchCalls
      = [100, 100, 50] ∧
    sendToExpo batch (fun _ => f) =
      ⟨rs, [1000, 2000], [batch.length, batch.length, batch.length]⟩ ∧
    sendToExpo batch (fun _ => g) =
      ⟨batch.map fun _ => ⟨"error", some e, none, none⟩, [1000, 2000],
        [batch.length, batch.length, batch.length]⟩ := by
  refine ⟨⟨?_, ?_⟩, ?_, ?_, ?_⟩
  · exact chunkArrayGo_flatten EXPO_BATCH_SIZE (by decide) msgs.length msgs le_rfl
  · intro c hc
    exact chunkArrayGo_length_le EXPO_BATCH_SIZE msgs.length msgs c hc
  · have hchunk : chunkArray (List.replicate 250 (⟨"t", "", ""⟩ : ExpoPushMessage))
        EXPO_BATCH_SIZE =
        [List.replicate 100 ⟨"t", "", ""⟩, List.replicate 100 ⟨"t", "", ""⟩,
          List.replicate 50 ⟨"t", "", ""⟩] := by decide
    have hab : attemptBatch (fun _ => Except.ok rs) 0 MAX_RETRIES = ⟨some rs, none, [], 1⟩ := by
      simp [attemptBatch, MAX_RETRIES]
    simp only [sendToExpo, hchunk]
    norm_num [List.enum, List.enumFrom, hab]
  · rw [sendToExpo_single batch _ hb hblen,
      show MAX_RETRIES = 3 from rfl, attemptBatch_retry_success f rs hf0 hf1 hf2]
    simp [List.replicate]
  · rw [sendToExpo_single batch _ hb hblen,
      show MAX_RETRIES = 3 from rfl, attemptBatch_exhausted g e hg hre]
    simp [List.replicate]

theorem sendToExpo_batching_retry_witness :
    sendToExpo [⟨"t", "", ""⟩]
        (fun _ a => if a < 2 then .error "Expo API error: 503 - Service Unavailable"
          else .ok [⟨"ok", none, none, none⟩]) =
      ⟨[⟨"ok", none, none, none⟩], [1000, 2000], [1, 1, 1]⟩ :=
  (sendToExpo_batching_retry [⟨"t", "", ""⟩] [⟨"t", "", ""⟩] [⟨"ok", none, none, none⟩]
      (fun a => if a < 2 then .error "Expo API error: 503 - Service Unavailable"
        else .ok [⟨"ok", none, none, none⟩])
      (fun _ => .error "timeout") "timeout"
      (by decide) (by decide) rfl rfl rfl (fun _ => rfl) (by decide)).2.2.1

/-! ### Feeding reminder proofs -/

theorem findSome?_cons_of_some {α β : Type} (f : α → Option β) (a : α) (l : List α) (b : β)
    (hfa : f a = some b) : List.findSome? f (a :: l) = some b := by
  rw [List.findSome?_cons, hfa]

/-- C9: at any Tuesday instant (UTC runtime), `calculateNextFeedingTime
('08:00', 'monday,wednesday', 'UTC')` skips today — Tuesday is not a
listed day — and the forward scan stops at the very next day: the result
is the start of the following civil day plus 8 hours, which falls on a
Wednesday, at exactly 08:00:00 UTC, strictly after `now`. -/
theorem calculateNextFeedingTime_tuesday (now : Int) (h : getUTCDay now = 2) :
    calculateNextFeedingTime ⟨8, 0⟩ "monday,wednesday" utcTz now =
      some ((dayNumber now + 1) * msPerDay + 8 * msPerHour) ∧
    getUTCDay ((dayNumber now + 1) * msPerDay + 8 * msPerHour) = 3 ∧
    ((dayNumber now + 1) * msPerDay + 8 * msPerHour) % msPerDay = 8 * msPerHour ∧
    now < (dayNumber now + 1) * msPerDay + 8 * msPerHour := by
  have hd1 : getUTCDay (now + msPerDay) = 3 := by
    unfold getUTCDay dayNumber msPerDay at h ⊢
    omega
  have hdiv2 : dayNumber (now + msPerDay) = dayNumber now + 1 := by
    unfold dayNumber msPerDay
    omega
  have hname1 : dayNames.getD ((2 : Int)).toNat "sunday" = "tuesday" := by decide
  have hname1' : dayNames.getD 2 "sunday" = "tuesday" := by decide
  have hname2 : dayNames.getD ((3 : Int)).toNat "sunday" = "wednesday" := by decide
  have hname2' : dayNames.getD 3 "sunday" = "wednesday" := by decide
  have hinc1 : strIncludes (strToLower "monday,wednesday") "tuesday" = false := by decide
  have hinc2 : strIncludes (strToLower "monday,wednesday") "wednesday" = true := by decide
  have hr7 : List.range 7 = [0, 1, 2, 3, 4, 5, 6] := by decide
  refine ⟨?_, ?_, ?_, ?_⟩
  · have hg3 : (dayNames[(3 : Nat)]?).getD "sunday" = "wednesday" := by decide
    have hg3' : (dayNames[(3 : Int).toNat]?).getD "sunday" = "wednesday" := by decide
    simp only [calculateNextFeedingTime, utcTz, id_eq, h, hname1, hname1', hinc1,
      Bool.false_eq_true, false_and, if_false, hr7]
    apply findSome?_cons_of_some
    norm_num [hd1, hdiv2, hinc2, hg3, hg3', civilOf, daysFromCivil_civilFromDays]
  · unfold getUTCDay dayNumber msPerDay at h
    unfold getUTCDay dayNumber msPerDay msPerHour
    omega
  · unfold msPerDay msPerHour
    omega
  · unfold dayNumber msPerDay msPerHour
    omega

theorem calculateNextFeedingTime_tuesday_witness :
    calculateNextFeedingTime ⟨8, 0⟩ "monday,wednesday" utcTz (5 * msPerDay) =
      some ((dayNumber (5 * msPerDay) + 1) * msPerDay + 8 * msPerHour) :=
  (calculateNextFeedingTime_tuesday (5 * msPerDay) (by decide)).1

/-! ### Weekly and monthly expander characterizations -/

/-- Arithmetic core of the Monday/Wednesday instance: for a Monday start
(`(b+4) % 7 = 1`) and a Monday or Wednesday current day, the ISO
(Monday-based) week offset agrees with the epoch (Thursday-based) week
offset, and inherits its sign and parity. -/
theorem epochWeek_iso_agree (a b : Int) (hb : (b + 4) % 7 = 1)
    (ha : (a + 4) % 7 = 1 ∨ (a + 4) % 7 = 3) (h0 : 0 ≤ a / 7 - b / 7)
    (hm : Int.tmod (a / 7 - b / 7) 2 = 0) :
    (a + 3) / 7 - (b + 3) / 7 = a / 7 - b / 7 ∧
    0 ≤ (a + 3) / 7 - (b + 3) / 7 ∧ ((a + 3) / 7 - (b + 3) / 7) % 2 = 0 := by
  have heq : (a + 3) / 7 - (b + 3) / 7 = a / 7 - b / 7 := by
    rcases ha with h | h <;> omega
  refine ⟨heq, by omega, ?_⟩
  rw [heq]
  rw [Int.tmod_eq_emod h0 (by norm_num)] at hm
  exact hm

/-- C1 counterexample: the code numbers weeks by epoch blocks of
604800000 ms, whose boundaries fall on Thursdays — not by ISO (Monday-
based) weeks.  Start Thursday 2024-01-04 (day 19726), current Monday
2024-01-08 (day 19730), `interval = 2`, `daysOfWeek = [1]`: the ISO week
offset is 1, odd, so the spec's rule excludes the day, yet the code
includes it (both instants lie in one epoch week). -/
theorem shouldIncludeDay_weekly_not_iso :
    shouldIncludeDay ⟨.weekly, some 2, [1], none, none, [], utcTz, 19726 * msPerDay, none, []⟩
        (19726 * msPerDay) (19730 * msPerDay) 2 = true ∧
    isoWeekOffset (19726 * msPerDay) (19730 * msPerDay) = 1 ∧
    Int.tmod (1 : Int) 2 ≠ 0 ∧
    getUTCDay (19726 * msPerDay) = 4 ∧ getUTCDay (19730 * msPerDay) = 1 := by
  decide

/-- C1 amended: the weekly expander includes a day iff the day lies a
nonnegative multiple of `interval` *epoch weeks* — fixed 604800000 ms
blocks since the epoch, whose boundaries fall on Thursdays, not ISO
weeks — from `startDate`, and its weekday is listed in `daysOfWeek` (or
equals `startDate`'s weekday when the list is empty).  For the claim's
instance — `interval = 2`, `daysOfWeek = [1, 3]`, starting on a Monday —
the spec's conclusion nevertheless holds: every included day is a Monday
or Wednesday and its ISO week offset from start equals the epoch-week
offset, a nonnegative even number, so included weeks are exactly two
calendar weeks apart. -/
theorem shouldIncludeDay_weekly_characterization (rule : RecurrenceRule)
    (start cur interval : Int) (hfreq : rule.frequency = .weekly) (hint : 1 ≤ interval) :
    (shouldIncludeDay rule start cur interval = true ↔
      (0 ≤ dayNumber cur / 7 - dayNumber start / 7 ∧
        (dayNumber cur / 7 - dayNumber start / 7) % interval = 0 ∧
        (if rule.daysOfWeek ≠ [] then rule.daysOfWeek.contains (getUTCDay cur) = true
          else getUTCDay cur = getUTCDay start))) ∧
    (rule.daysOfWeek = [1, 3] → interval = 2 → getUTCDay start = 1 →
      shouldIncludeDay rule start cur interval = true →
        (getUTCDay cur = 1 ∨ getUTCDay cur = 3) ∧
        isoWeekOffset start cur = dayNumber cur / 7 - dayNumber start / 7 ∧
        0 ≤ isoWeekOffset start cur ∧ isoWeekOffset start cur % 2 = 0) := by
  have hw : ∀ t : Int, t / msPerWeek = dayNumber t / 7 := by
    intro t
    unfold msPerWeek dayNumber msPerDay
    omega
  have htme : ∀ x : Int, 0 ≤ x → Int.tmod x interval = x % interval := by
    intro x hx
    rw [Int.tmod_eq_emod hx (by omega)]
  constructor
  · simp only [shouldIncludeDay, hfreq, hw]
    constructor
    · intro hinc
      split_ifs at hinc with h1 h2
      · exact ⟨h1.1, by rw [← htme _ h1.1]; exact h1.2,
          by rw [if_pos h2]; exact hinc⟩
      · exact ⟨h1.1, by rw [← htme _ h1.1]; exact h1.2,
          by rw [if_neg h2]; exact beq_iff_eq.mp hinc⟩
    · rintro ⟨hw0, hmod, hday⟩
      rw [if_pos ⟨hw0, by rw [htme _ hw0]; exact hmod⟩]
      split_ifs at hday ⊢ with h2
      · exact hday
      · exact beq_iff_eq.mpr hday
  · intro hdw hi2 hmon hinc
    subst hi2
    simp only [shouldIncludeDay, hfreq, hw, hdw] at hinc
    split_ifs at hinc with h1 h2
    · have hday : getUTCDay cur = 1 ∨ getUTCDay cur = 3 := by
        simpa using hinc
      have hb' : (dayNumber start + 4) % 7 = 1 := hmon
      have ha' : (dayNumber cur + 4) % 7 = 1 ∨ (dayNumber cur + 4) % 7 = 3 := hday
      have hh := epochWeek_iso_agree (dayNumber cur) (dayNumber start) hb' ha' h1.1 h1.2
      exact ⟨hday, hh.1, hh.2.1, hh.2.2⟩
    · simp at h2

theorem shouldIncludeDay_weekly_characterization_witness :
    shouldIncludeDay ⟨.weekly, some 2, [1, 3], none, none, [], utcTz, 19730 * msPerDay, none, []⟩
        (19730 * msPerDay) (19744 * msPerDay) 2 = true ↔
      (0 ≤ dayNumber (19744 * msPerDay) / 7 - dayNumber (19730 * msPerDay) / 7 ∧
        (dayNumber (19744 * msPerDay) / 7 - dayNumber (19730 * msPerDay) / 7) % 2 = 0 ∧
        (if ([1, 3] : List Int) ≠ [] then
            ([1, 3] : List Int).contains (getUTCDay (19744 * msPerDay)) = true
          else getUTCDay (19744 * msPerDay) = getUTCDay (19730 * msPerDay))) :=
  (shouldIncludeDay_weekly_characterization
    ⟨.weekly, some 2, [1, 3], none, none, [], utcTz, 19730 * msPerDay, none, []⟩
    (19730 * msPerDay) (19744 * msPerDay) 2 rfl (by decide)).1

/-- Months of a `civilFromDays` result lie in `1 … 12`. -/
theorem civilFromDays_month_range (n : Int) :
    1 ≤ (civilFromDays n).month ∧ (civilFromDays n).month ≤ 12 := by
  have hdoe0 : 0 ≤ n + 719468 - (n + 719468) / 146097 * 146097 := by omega
  have hdoe1 : n + 719468 - (n + 719468) / 146097 * 146097 ≤ 146096 := by omega
  have hc := yoe_correct (n + 719468 - (n + 719468) / 146097 * 146097) hdoe0 hdoe1
  unfold yoeOf yoeNum dstart at hc
  unfold civilFromDays
  simp only
  split_ifs <;> omega

/-- C3 counterexample: with `interval = 2` months at odd offsets are
skipped entirely.  Rule: monthly, `dayOfMonth = 31`, start 2024-01-31
(day 19753), `interval = 2`.  February 2024 — days 19754 … 19782, all of
year 2024, 0-based month 1, inside the 730-day monthly horizon — contains
no included day: `monthsSinceStart = 1` is not a multiple of 2, so even
its clamped last day (Feb 29) is rejected. -/
theorem shouldIncludeDay_monthly_skips_month :
    (∀ k ∈ List.range 29, shouldIncludeDay
        ⟨.monthly, some 2, [], some 31, none, [], utcTz, 19753 * msPerDay, none, []⟩
        (19753 * msPerDay) ((19754 + (k : Int)) * msPerDay) 2 = false) ∧
    getUTCFullYear (19754 * msPerDay) = 2024 ∧ getUTCMonth (19754 * msPerDay) = 1 ∧
    getUTCDate (19754 * msPerDay) = 1 ∧ getUTCDate (19782 * msPerDay) = 29 ∧
    getUTCMonth (19782 * msPerDay) = 1 := by
  decide

/-- C3 amended: for a monthly rule with `dayOfMonth = 31`, a day is
included iff it is the month's clamped target day — the 31st, or the last
day of a shorter month (`min 31 (daysInMonth y m)`) — *and*, when
`interval > 1`, the month offset from `startDate` is a multiple of
`interval`; months at non-multiple offsets are skipped.  Every civil
month does carry an instant at its clamped target day, so months at
multiple offsets are never skipped. -/
theorem shouldIncludeDay_monthly_day31 (rule : RecurrenceRule) (start cur interval : Int)
    (hfreq : rule.frequency = .monthly) (hdom : rule.dayOfMonth = some 31) :
    (shouldIncludeDay rule start cur interval = true ↔
      (getUTCDate cur = min 31 (daysInMonth (getUTCFullYear cur) (getUTCMonth cur + 1)) ∧
        (1 < interval →
          Int.tmod ((getUTCFullYear cur - getUTCFullYear start) * 12 +
            (getUTCMonth cur - getUTCMonth start)) interval = 0))) ∧
    (∀ y m, 1 ≤ m → m ≤ 12 →
      ∃ t, getUTCFullYear t = y ∧ getUTCMonth t = m - 1 ∧
        getUTCDate t = min 31 (daysInMonth y m)) := by
  have hmr := civilFromDays_month_range (dayNumber cur)
  have h0 : 0 ≤ getUTCMonth cur := by unfold getUTCMonth civilOf; omega
  have h11 : getUTCMonth cur ≤ 11 := by unfold getUTCMonth civilOf; omega
  have hL := lastDayOfMonthJS_eq (getUTCFullYear cur) (getUTCMonth cur) h0 h11
  have hDle := daysInMonth_le (getUTCFullYear cur) (getUTCMonth cur + 1)
  constructor
  · simp only [shouldIncludeDay, hfreq, hdom, Option.getD_some, hL]
    have hincl : (if (31 : Int) > daysInMonth (getUTCFullYear cur) (getUTCMonth cur + 1) then
        getUTCDate cur == daysInMonth (getUTCFullYear cur) (getUTCMonth cur + 1)
        else getUTCDate cur == (31 : Int))
        = decide (getUTCDate cur
            = min 31 (daysInMonth (getUTCFullYear cur) (getUTCMonth cur + 1))) := by
      split_ifs with hgt
      · rw [min_eq_right (by omega)]
        by_cases hc : getUTCDate cur = daysInMonth (getUTCFullYear cur) (getUTCMonth cur + 1) <;>
          simp [hc]
      · have hD : daysInMonth (getUTCFullYear cur) (getUTCMonth cur + 1) = 31 := by omega
        rw [hD]
        by_cases hc : getUTCDate cur = (31 : Int) <;> simp [hc]
    rw [hincl]
    by_cases hi : 1 < interval <;>
      by_cases hc : getUTCDate cur
          = min 31 (daysInMonth (getUTCFullYear cur) (getUTCMonth cur + 1)) <;>
        simp [hc, hi]
  · intro y m hm1 hm2
    have hdm1 : 1 ≤ daysInMonth y m := by unfold daysInMonth; split_ifs <;> omega
    have hday : dayNumber (daysFromCivil y m (min 31 (daysInMonth y m)) * msPerDay)
        = daysFromCivil y m (min 31 (daysInMonth y m)) := by
      unfold dayNumber msPerDay
      omega
    have hcv : civilOf (daysFromCivil y m (min 31 (daysInMonth y m)) * msPerDay)
        = ⟨y, m, min 31 (daysInMonth y m)⟩ := by
      unfold civilOf
      rw [hday]
      exact civilFromDays_daysFromCivil y m _ hm1 hm2 (by omega) (by omega)
    refine ⟨daysFromCivil y m (min 31 (daysInMonth y m)) * msPerDay, ?_, ?_, ?_⟩
    · unfold getUTCFullYear
      rw [hcv]
    · unfold getUTCMonth
      rw [hcv]
    · unfold getUTCDate
      rw [hcv]

theorem shouldIncludeDay_monthly_day31_witness :
    shouldIncludeDay ⟨.monthly, some 1, [], some 31, none, [], utcTz, 0, none, []⟩
        0 (19753 * msPerDay) 1 = true ↔
      (getUTCDate (19753 * msPerDay) = min 31 (daysInMonth (getUTCFullYear (19753 * msPerDay))
          (getUTCMonth (19753 * msPerDay) + 1)) ∧
        (1 < (1 : Int) →
          Int.tmod ((getUTCFullYear (19753 * msPerDay) - getUTCFullYear 0) * 12 +
            (getUTCMonth (19753 * msPerDay) - getUTCMonth 0)) 1 = 0)) :=
  (shouldIncludeDay_monthly_day31
    ⟨.monthly, some 1, [], some 31, none, [], utcTz, 0, none, []⟩
    0 (19753 * msPerDay) 1 rfl rfl).1

end Petopia
